import Mathlib

/-!
Rigid-body collision filtering, constrained forward dynamics, initial state and loading.

A shallow embedding of `drake/systems/plants/RigidBody.h` and
`drake/systems/plants/RigidBodySystem.cpp`, and theorems about it.

Modelling conventions:

* A C++ object is known by its address.  Bodies live in a store
  `Addr → RigidBody`; a `RigidBody&` or `RigidBody*` is an `Addr`, the null
  pointer is `none`, and `this == &other` is equality of addresses.
* `DrakeCollision::bitmask` is a `std::bitset` whose width is declared outside
  the two files; a mask is the natural number its bits spell, `&` and `|` are
  the bitwise operations on naturals, `.any()` is "not zero", and the width is
  a parameter of the one operation (`~`) that needs it.
* `DrakeJoint` is declared elsewhere; of a joint only the answer of
  `isFloating()` is kept.
* `double` is an exact field `K` (the laws of a linear ordered field are used,
  rounding is not modelled); the square root inside `norm()` is a parameter
  `sqrt : K → K`; a `double` that may be infinite is a `Limit K`.  Where overflow
  decides what the code does (the axis of a propellor, lines 172-178) the same
  lines are also given on `Double`, a `double` with infinities and not-a-number.
* A function that can throw returns how it ended together with the state of the
  system at that moment, so that what an exception leaves behind can be stated.
* Text written to `std::cout` is kept only where a statement is about it
  (`getInitialState`), as the list of the pieces written.
-/

namespace Drake

/-! ## `RigidBody.h` -/

/-- The address of an object; `RigidBody*` is `Option Addr`. -/
abbrev Addr := Nat

namespace DrakeCollision

/-- The bits of a `std::bitset`, read as a natural number. -/
abbrev bitmask := Nat

/-- The method `bitset::any`: some bit is set. -/
def bitmask.any (m : bitmask) : Bool := m != 0

/-- The operator `~` on a bitset of width `w`: every one of the `w` bits is flipped. -/
def bitmask.flip (w : Nat) (m : bitmask) : bitmask := (2 ^ w - 1) ^^^ (m % 2 ^ w)

end DrakeCollision

/-- What `RigidBody.h` uses of a `DrakeJoint`: the answer of `isFloating()`. -/
structure DrakeJoint where
  isFloating : Bool
  deriving DecidableEq

/-- The fields of `class RigidBody` that the collision filter reads or writes. -/
structure RigidBody where
  /-- Source: `std::unique_ptr<DrakeJoint> joint`, `none` when the pointer is null. -/
  joint : Option DrakeJoint
  collision_filter_group : DrakeCollision.bitmask
  collision_filter_ignores : DrakeCollision.bitmask
  /-- Source: `RigidBody* parent`, `none` when the pointer is null. -/
  parent : Option Addr
  deriving DecidableEq

/-- The bodies in memory, by address. -/
abbrev Store := Addr → RigidBody

namespace RigidBody

/-- Source: `has_as_parent(other)` returns `parent == &other`. -/
def has_as_parent (mem : Store) (this other : Addr) : Bool :=
  (mem this).parent == some other

/-- The test `joint && joint->isFloating()` on the body at `this`. -/
def jointIsFloating (mem : Store) (this : Addr) : Bool :=
  match (mem this).joint with
  | some j => j.isFloating
  | none => false

def getCollisionFilterGroup (mem : Store) (this : Addr) : DrakeCollision.bitmask :=
  (mem this).collision_filter_group

def getCollisionFilterIgnores (mem : Store) (this : Addr) : DrakeCollision.bitmask :=
  (mem this).collision_filter_ignores

/-- Source: `this->collision_filter_group |= group;` -/
def addToCollisionFilterGroup (b : RigidBody) (group : DrakeCollision.bitmask) : RigidBody :=
  { b with collision_filter_group := b.collision_filter_group ||| group }

/-- Source: `this->collision_filter_ignores |= group;` -/
def ignoreCollisionFilterGroup (b : RigidBody) (group : DrakeCollision.bitmask) : RigidBody :=
  { b with collision_filter_ignores := b.collision_filter_ignores ||| group }

/-- Source: `this->collision_filter_ignores &= ~group;` on masks of width `w`. -/
def collideWithCollisionFilterGroup (w : Nat) (b : RigidBody) (group : DrakeCollision.bitmask) :
    RigidBody :=
  { b with collision_filter_ignores :=
      b.collision_filter_ignores &&& DrakeCollision.bitmask.flip w group }

/-- The method `adjacentTo`:
`(has_as_parent(other) && !(joint && joint->isFloating())) ||
 (other.has_as_parent(*this) && !(other.joint && other.joint->isFloating()))`. -/
def adjacentTo (mem : Store) (this other : Addr) : Bool :=
  (has_as_parent mem this other && !(jointIsFloating mem this)) ||
  (has_as_parent mem other this && !(jointIsFloating mem other))

/-- The method `CollidesWith`: `ignored` is the disjunction of identity, adjacency and
the two mask tests, and the result is `!ignored`. -/
def CollidesWith (mem : Store) (this other : Addr) : Bool :=
  let ignored :=
    decide (this = other) || adjacentTo mem this other ||
    DrakeCollision.bitmask.any
      ((mem this).collision_filter_group &&& getCollisionFilterIgnores mem other) ||
    DrakeCollision.bitmask.any
      (getCollisionFilterGroup mem other &&& (mem this).collision_filter_ignores)
  !ignored

end RigidBody

/-! ## `RigidBodySystem.cpp`: the collaborators of `dynamics`

The kinematic tree, the kinematics cache, the force elements and the optimization
problem are declared outside the two files.  Their operations are taken as fields of
the structures below, with the shapes `dynamics` relies on. -/

/-- An `Eigen::Vector3d`, or one column of a `Matrix3Xd`. -/
abbrev Vector3 (K : Type) := Fin 3 → K

/-- A spatial force, `Matrix<double, 6, 1>`. -/
abbrev SpatialForce (K : Type) := Fin 6 → K

/-- The map `f_ext`, from a body (by address) to its accumulated spatial force. -/
abbrev ExternalForces (K : Type) := Addr → Option (SpatialForce K)

/-- What `tree->collisionDetect` writes through its reference arguments: `rows` is
`phi.rows()`, and entry or column `i` of each output belongs to candidate pair `i`. -/
structure ContactPairs (K : Type) where
  rows : Nat
  phi : Fin rows → K
  normal : Fin rows → Vector3 K
  xA : Fin rows → Vector3 K
  xB : Fin rows → Vector3 K
  bodyA_idx : Fin rows → Int
  bodyB_idx : Fin rows → Int

/-- The members of `RigidBodyTree` (and the one method of its kinematics cache) that
`dynamics` calls.  `Cache` is the type of the kinematics cache. -/
structure RigidBodyTree (K : Type) (Cache : Type) where
  num_positions : Nat
  num_velocities : Nat
  /-- Source: `actuators.size()` -/
  num_actuators : Nat
  /-- Source: `getNumPositionConstraints()` -/
  getNumPositionConstraints : Nat
  B : Matrix (Fin num_velocities) (Fin num_actuators) K
  doKinematics : (Fin num_positions → K) → (Fin num_velocities → K) → Cache
  massMatrix : Cache → Matrix (Fin num_velocities) (Fin num_velocities) K
  dynamicsBiasTerm : Cache → ExternalForces K → Fin num_velocities → K
  collisionDetect : Cache → ContactPairs K
  /-- Source: `forwardKinJacobian(kinsol, point, body_idx, 0, 0, false)` -/
  forwardKinJacobian : Cache → Vector3 K → Int → Matrix (Fin 3) (Fin num_velocities) K
  positionConstraints : Cache → Fin getNumPositionConstraints → K
  /-- Source: `positionConstraintsJacobian(kinsol, false)` -/
  positionConstraintsJacobian :
    Cache → Matrix (Fin getNumPositionConstraints) (Fin num_velocities) K
  positionConstraintsJacDotTimesV : Cache → Fin getNumPositionConstraints → K
  /-- Source: `kinsol.transformPositionDotMappingToVelocityMapping(A)` -/
  transformPositionDotMappingToVelocityMapping :
    Cache → Matrix (Fin num_positions) (Fin num_positions) K →
      Matrix (Fin num_positions) (Fin num_velocities) K

/-- The members of `RigidBodyFrame` that `dynamics` reads; `Tf` is the type of a rigid
transform. -/
structure RigidBodyFrame (Tf : Type) where
  body : Addr
  transform_to_body : Tf

/-- A registered force element, as `dynamics` uses it: its frame and its `output`
(time, one-entry input, kinematics cache; the force state is the empty vector). -/
structure RigidBodyForceElement (K : Type) (Cache : Type) (Tf : Type) where
  getFrame : RigidBodyFrame Tf
  output : K → (Fin 1 → K) → Cache → SpatialForce K

/-- The members of `RigidBodySystem` that `dynamics` reads. -/
structure RigidBodySystem (K : Type) (Cache : Type) (Tf : Type) where
  tree : RigidBodyTree K Cache
  props : List (RigidBodyForceElement K Cache Tf)

/-- A block of decision variables: where it starts among all decision variables and
how many it has. -/
structure DecisionVariableView where
  start : Nat
  size : Nat
  deriving DecidableEq

/-- A linear equality constraint `A * x = b`, where `x` is the concatenation of the
blocks in `vars`. -/
structure LinearEqualityConstraint (K : Type) where
  rows : Nat
  cols : Nat
  A : Matrix (Fin rows) (Fin cols) K
  b : Fin rows → K
  vars : List DecisionVariableView

/-- Modelled from the spec: class `OptimizationProblem` is declared outside the two
files.  It holds the decision-variable blocks (size and name), in the order they were
added, and the linear equality constraints, in the order they were added. -/
structure OptimizationProblem (K : Type) where
  decision_variables : List (Nat × String)
  constraints : List (LinearEqualityConstraint K)

/-- A dynamically sized matrix whose number of rows `m` the code never changes
(`conservativeResize` is called with `NoChange` for the rows). -/
structure MatrixXd (K : Type) (m : Nat) where
  cols : Nat
  coeff : Matrix (Fin m) (Fin cols) K

namespace OptimizationProblem

variable {K : Type}

/-- The number of decision variables declared so far. -/
def num_vars (prog : OptimizationProblem K) : Nat :=
  (prog.decision_variables.map Prod.fst).sum

/-- The views of all the blocks declared so far, in order, starting at `start`. -/
def viewsFrom : Nat → List (Nat × String) → List DecisionVariableView
  | _, [] => []
  | start, (n, _) :: rest => ⟨start, n⟩ :: viewsFrom (start + n) rest

/-- Modelled from the spec: `addContinuousVariables(n, name)` appends a block of `n`
variables and returns a view of it. -/
def addContinuousVariables (prog : OptimizationProblem K) (n : Nat) (name : String) :
    OptimizationProblem K × DecisionVariableView :=
  ({ prog with decision_variables := prog.decision_variables ++ [(n, name)] }, ⟨prog.num_vars, n⟩)

/-- Modelled from the spec: `addLinearEqualityConstraint(A, b, vars)` records the
constraint `A * vars = b`. -/
def addLinearEqualityConstraint {m : Nat} (prog : OptimizationProblem K) (A : MatrixXd K m)
    (b : Fin m → K) (vars : List DecisionVariableView) : OptimizationProblem K :=
  { prog with constraints := prog.constraints ++ [⟨m, A.cols, A.coeff, b, vars⟩] }

/-- Modelled from the spec: `addLinearEqualityConstraint(A, b)` without a variable list
constrains all the decision variables declared so far. -/
def addLinearEqualityConstraintAll {m : Nat} (prog : OptimizationProblem K) (A : MatrixXd K m)
    (b : Fin m → K) : OptimizationProblem K :=
  addLinearEqualityConstraint prog A b (viewsFrom 0 prog.decision_variables)

end OptimizationProblem

/-- The values a solution gives to the variables of the blocks `vars`, concatenated. -/
def gather {K : Type} (sol : Nat → K) (vars : List DecisionVariableView) : List K :=
  vars.flatMap fun w => (List.range w.size).map fun k => sol (w.start + k)

/-- The value of a block in a solution (`vdot.value`). -/
def DecisionVariableView.value {K : Type} (w : DecisionVariableView) (sol : Nat → K) (n : Nat) :
    Fin n → K :=
  fun i => sol (w.start + i)

/-- Modelled from the spec: a solution (one value for each decision variable, by its
index) satisfies the constraint `A * x = b`. -/
def LinearEqualityConstraint.holds {K : Type} [Field K] (c : LinearEqualityConstraint K)
    (sol : Nat → K) : Prop :=
  c.A.mulVec (fun j => (gather sol c.vars).getD j 0) = c.b

instance {K : Type} [Field K] [DecidableEq K] (c : LinearEqualityConstraint K) (sol : Nat → K) :
    Decidable (c.holds sol) :=
  inferInstanceAs (Decidable (c.A.mulVec (fun j => (gather sol c.vars).getD j 0) = c.b))

/-- Modelled from the spec: a solution satisfies every constraint of the problem. -/
def OptimizationProblem.Satisfies {K : Type} [Field K] (prog : OptimizationProblem K)
    (sol : Nat → K) : Prop :=
  ∀ c ∈ prog.constraints, c.holds sol

namespace MatrixXd

variable {K : Type} {m : Nat}

/-- A fixed-size matrix, copied into a dynamic one (`Eigen::MatrixXd M = H;`). -/
def ofMatrix {n : Nat} (H : Matrix (Fin m) (Fin n) K) : MatrixXd K m := ⟨n, H⟩

/-- Source: `M.conservativeResize(NoChange, c)`: the entries in the columns that stay are kept;
the entries of new columns are not initialised by Eigen, here they are `0`. -/
def conservativeResize [Zero K] (M : MatrixXd K m) (c : Nat) : MatrixXd K m :=
  ⟨c, fun i j => if h : j.val < M.cols then M.coeff i ⟨j.val, h⟩ else 0⟩

/-- Source: `M.rightCols(k) = R`: the last `k` columns are overwritten with `R`. -/
def setRightCols {k : Nat} (M : MatrixXd K m) (R : Matrix (Fin m) (Fin k) K) : MatrixXd K m :=
  ⟨M.cols, fun i j =>
    if h : M.cols - k ≤ j.val ∧ j.val - (M.cols - k) < k then R i ⟨j.val - (M.cols - k), h.2⟩
    else M.coeff i j⟩

end MatrixXd

/-! ## `RigidBodySystem::dynamics` -/

section dynamics

variable {K : Type} [LinearOrderedField K] {Cache Tf : Type}

/-- Source: `u.middleRows(u_index, 1)`: defined when row `u_index` exists. -/
def middleRows1 (u : List K) (u_index : Nat) : Option (Fin 1 → K) :=
  (u.get? u_index).map fun a _ => a

/-- Source: `u.topRows(n)`: defined when `u` has at least `n` rows. -/
def topRows (u : List K) (n : Nat) : Option (Fin n → K) :=
  if h : n ≤ u.length then some fun i => u.get ⟨i.val, lt_of_lt_of_le i.isLt h⟩ else none

/-- The statements `if (f_ext.find(body)==f_ext.end()) f_ext[body] = f_ext_i;
else f_ext[body] = f_ext[body]+f_ext_i;`. -/
def f_ext_add (f_ext : ExternalForces K) (body : Addr) (f_ext_i : SpatialForce K) :
    ExternalForces K :=
  match f_ext body with
  | none => fun a => if a = body then some f_ext_i else f_ext a
  | some old => fun a => if a = body then some (old + f_ext_i) else f_ext a

/-- The loop over `props` (lines 29-42), from the element at the head of the list on,
with the current `u_index` and `f_ext`.  There is no result when `u` has no row
`u_index` for some element. -/
def dynamics_f_ext (transformSpatialForce : Tf → SpatialForce K → SpatialForce K)
    (t : K) (u : List K) (kinsol : Cache) :
    List (RigidBodyForceElement K Cache Tf) → Nat → ExternalForces K →
      Option (ExternalForces K)
  | [], _, f_ext => some f_ext
  | prop :: rest, u_index, f_ext =>
    let frame := prop.getFrame
    let body := frame.body
    let num_inputs := 1
    match middleRows1 u u_index with
    | none => none
    | some u_i =>
      let f_ext_i := transformSpatialForce frame.transform_to_body (prop.output t u_i kinsol)
      dynamics_f_ext transformSpatialForce t u kinsol rest (u_index + num_inputs)
        (f_ext_add f_ext body f_ext_i)

/-- Lines 44-45: `C = tree->dynamicsBiasTerm(kinsol, f_ext)`, then
`if (num_actuators > 0) C -= tree->B * u.topRows(num_actuators)`. -/
def dynamics_C (tree : RigidBodyTree K Cache) (kinsol : Cache) (f_ext : ExternalForces K)
    (u : List K) : Option (Fin tree.num_velocities → K) :=
  let C := tree.dynamicsBiasTerm kinsol f_ext
  if 0 < tree.num_actuators then
    match topRows u tree.num_actuators with
    | none => none
    | some u_top => some (C - tree.B.mulVec u_top)
  else some C

/-- Source: `(JA-JB)*v` -/
def relative_velocity {nv : Nat} (JA JB : Matrix (Fin 3) (Fin nv) K) (v : Fin nv → K) :
    Vector3 K :=
  (JA - JB).mulVec v

/-- Source: `relative_velocity.dot(normal.col(i))` -/
def phidot (relative_velocity normal : Vector3 K) : K :=
  Matrix.dotProduct relative_velocity normal

/-- Source: `-k*phi(i) - b*phidot` with `double k = 500, b = k/10`. -/
def fA_normal (phi phidot : K) : K :=
  let k : K := 500
  let b : K := k / 10;
  -k * phi - b * phidot

/-- Source: `relative_velocity - phidot*normal.col(i)` -/
def tangential_velocity (relative_velocity : Vector3 K) (phidot : K) (normal : Vector3 K) :
    Vector3 K :=
  relative_velocity - phidot • normal

/-- The method `norm()` of Eigen: the square root of the sum of the squared entries. -/
def norm (sqrt : K → K) (w : Vector3 K) : K :=
  sqrt (Matrix.dotProduct w w)

/-- The subtrahend of `fA`, with its sign:
`- mu*fA_normal*tangential_velocity/(tangential_velocity.norm() + 1e-12)`, `mu = 1.0`. -/
def friction (sqrt : K → K) (fA_normal : K) (tangential_velocity : Vector3 K) : Vector3 K :=
  let mu : K := 1.0;
  fun j => -(mu * fA_normal * tangential_velocity j / (norm sqrt tangential_velocity + 1e-12))

/-- Source: `fA_normal*normal.col(i)
 - mu*fA_normal*tangential_velocity/(tangential_velocity.norm() + 1e-12)` -/
def fA (sqrt : K → K) (fA_normal : K) (normal tangential_velocity : Vector3 K) : Vector3 K :=
  let mu : K := 1.0
  fun j => fA_normal * normal j -
    mu * fA_normal * tangential_velocity j / (norm sqrt tangential_velocity + 1e-12)

/-- The force `fA` of one contact, from the penetration `phi`, the normal, the two
Jacobians and `v` (lines 61-68). -/
def contact_fA {nv : Nat} (sqrt : K → K) (phi : K) (normal : Vector3 K)
    (JA JB : Matrix (Fin 3) (Fin nv) K) (v : Fin nv → K) : Vector3 K :=
  let relative_velocity := relative_velocity JA JB v
  let phidot := phidot relative_velocity normal
  let fA_normal := fA_normal phi phidot
  let tangential_velocity := tangential_velocity relative_velocity phidot normal
  fA sqrt fA_normal normal tangential_velocity

/-- The value of `fA_normal` for one contact (lines 61-63). -/
def contact_fA_normal {nv : Nat} (phi : K) (normal : Vector3 K)
    (JA JB : Matrix (Fin 3) (Fin nv) K) (v : Fin nv → K) : K :=
  fA_normal phi (phidot (relative_velocity JA JB v) normal)

/-- The value of `tangential_velocity` for one contact (lines 61-66). -/
def contact_tangential_velocity {nv : Nat} (normal : Vector3 K)
    (JA JB : Matrix (Fin 3) (Fin nv) K) (v : Fin nv → K) : Vector3 K :=
  tangential_velocity (relative_velocity JA JB v) (phidot (relative_velocity JA JB v) normal)
    normal

/-- The friction part of `fA` for one contact. -/
def contact_friction {nv : Nat} (sqrt : K → K) (phi : K) (normal : Vector3 K)
    (JA JB : Matrix (Fin 3) (Fin nv) K) (v : Fin nv → K) : Vector3 K :=
  friction sqrt (contact_fA_normal phi normal JA JB v) (contact_tangential_velocity normal JA JB v)

/-- The Jacobian `JA` of pair `i` (line 59). -/
def contact_JA (tree : RigidBodyTree K Cache) (kinsol : Cache) (cp : ContactPairs K)
    (i : Fin cp.rows) : Matrix (Fin 3) (Fin tree.num_velocities) K :=
  tree.forwardKinJacobian kinsol (cp.xA i) (cp.bodyA_idx i)

/-- The Jacobian `JB` of pair `i` (line 60). -/
def contact_JB (tree : RigidBodyTree K Cache) (kinsol : Cache) (cp : ContactPairs K)
    (i : Fin cp.rows) : Matrix (Fin 3) (Fin tree.num_velocities) K :=
  tree.forwardKinJacobian kinsol (cp.xB i) (cp.bodyB_idx i)

/-- What line 72 subtracts from `C` for pair `i`:
`JA.transpose()*fA - JB.transpose()*fA`. -/
def contact_generalized_force (sqrt : K → K) (tree : RigidBodyTree K Cache) (kinsol : Cache)
    (v : Fin tree.num_velocities → K) (cp : ContactPairs K) (i : Fin cp.rows) :
    Fin tree.num_velocities → K :=
  let JA := contact_JA tree kinsol cp i
  let JB := contact_JB tree kinsol cp i
  let fA := contact_fA sqrt (cp.phi i) (cp.normal i) JA JB v
  JA.transpose.mulVec fA - JB.transpose.mulVec fA

/-- The body of the contact loop for pair `i` (lines 56-73). -/
def dynamics_contact_step (sqrt : K → K) (tree : RigidBodyTree K Cache) (kinsol : Cache)
    (v : Fin tree.num_velocities → K) (cp : ContactPairs K)
    (C : Fin tree.num_velocities → K) (i : Fin cp.rows) : Fin tree.num_velocities → K :=
  if cp.phi i < 0 then
    let JA := contact_JA tree kinsol cp i
    let JB := contact_JB tree kinsol cp i
    let fA := contact_fA sqrt (cp.phi i) (cp.normal i) JA JB v
    C - (JA.transpose.mulVec fA - JB.transpose.mulVec fA)
  else C

/-- The contact loop (lines 47-75): `collisionDetect`, then the loop body for
`i = 0, ..., phi.rows() - 1` in this order. -/
def dynamics_contact (sqrt : K → K) (tree : RigidBodyTree K Cache) (kinsol : Cache)
    (v : Fin tree.num_velocities → K) (C : Fin tree.num_velocities → K) :
    Fin tree.num_velocities → K :=
  let cp := tree.collisionDetect kinsol
  (List.finRange cp.rows).foldl (dynamics_contact_step sqrt tree kinsol v cp) C

/-- The right-hand side of the stabilised position constraint:
`-(Jdotv + 2*alpha*J*v + alpha*alpha*phi)` with `alpha = 5.0` (line 94). -/
def position_constraint_rhs {nc nv : Nat} (J : Matrix (Fin nc) (Fin nv) K) (Jdotv : Fin nc → K)
    (phi : Fin nc → K) (v : Fin nv → K) : Fin nc → K :=
  let alpha : K := 5.0;
  -(Jdotv + ((2 * alpha) • J).mulVec v + (alpha * alpha) • phi)

/-- The value of `H_and_neg_JT` after lines 81, 95 and 96: a copy of `H`, resized to
`H_and_neg_JT.cols() + J.rows()` columns, with the last `J.rows()` columns overwritten
by `-J.transpose()`. -/
def augmented {nv nc : Nat} (H : Matrix (Fin nv) (Fin nv) K) (J : Matrix (Fin nc) (Fin nv) K) :
    MatrixXd K nv :=
  ((MatrixXd.ofMatrix H).conservativeResize ((MatrixXd.ofMatrix H).cols + nc)).setRightCols
    (-J.transpose)

/-- Lines 78-100: the optimization problem `prog` that `dynamics` builds, and the view
`vdot` of its first block.  `J` has `nc` rows by its type, so `J.rows()` is `nc`. -/
def dynamics_prog (tree : RigidBodyTree K Cache) (kinsol : Cache)
    (v : Fin tree.num_velocities → K) (C : Fin tree.num_velocities → K) :
    OptimizationProblem K × DecisionVariableView :=
  let nv := tree.num_velocities
  let H := tree.massMatrix kinsol
  let prog : OptimizationProblem K := ⟨[], []⟩
  let (prog, vdot) := prog.addContinuousVariables nv "vdot"
  let H_and_neg_JT : MatrixXd K tree.num_velocities := MatrixXd.ofMatrix H
  let (prog, H_and_neg_JT) :=
    if tree.getNumPositionConstraints ≠ 0 then
      let nc := tree.getNumPositionConstraints
      let prog := (prog.addContinuousVariables nc "position constraint force").1
      let phi := tree.positionConstraints kinsol
      let J := tree.positionConstraintsJacobian kinsol
      let Jdotv := tree.positionConstraintsJacDotTimesV kinsol
      let prog := prog.addLinearEqualityConstraint (MatrixXd.ofMatrix J)
        (position_constraint_rhs J Jdotv phi v) [vdot]
      let H_and_neg_JT := H_and_neg_JT.conservativeResize (H_and_neg_JT.cols + nc)
      let H_and_neg_JT := H_and_neg_JT.setRightCols (-J.transpose)
      (prog, H_and_neg_JT)
    else (prog, H_and_neg_JT)
  (prog.addLinearEqualityConstraintAll H_and_neg_JT (-C), vdot)

/-- The state `x` split as `x.topRows(nq)` and `x.bottomRows(nv)`. -/
def x_q {nq nv : Nat} (x : Fin (nq + nv) → K) : Fin nq → K := fun i => x (Fin.castAdd nv i)

def x_v {nq nv : Nat} (x : Fin (nq + nv) → K) : Fin nv → K := fun i => x (Fin.natAdd nq i)

/-- The kinematics cache `kinsol` that `dynamics` computes from `x` (lines 21-23). -/
def dynamics_kinsol (sys : RigidBodySystem K Cache Tf)
    (x : Fin (sys.tree.num_positions + sys.tree.num_velocities) → K) : Cache :=
  sys.tree.doKinematics (x_q x) (x_v x)

/-- The method `RigidBodySystem::dynamics(t, x, u)`.  `transformSpatialForce` and the
solver (`prog.solve()`, which gives every decision variable a value) are declared
outside the two files and are parameters, as is the square root.  The result is `none`
when `u` has too few rows for a `middleRows` or `topRows` that is executed.  Writing
`phi` to `std::cout` is not modelled. -/
def dynamics (sqrt : K → K) (transformSpatialForce : Tf → SpatialForce K → SpatialForce K)
    (solve : OptimizationProblem K → Nat → K) (sys : RigidBodySystem K Cache Tf)
    (t : K) (x : Fin (sys.tree.num_positions + sys.tree.num_velocities) → K) (u : List K) :
    Option (Fin (sys.tree.num_positions + sys.tree.num_velocities) → K) :=
  let tree := sys.tree
  let nq := tree.num_positions
  let nv := tree.num_velocities
  let q := x_q x
  let v := x_v x
  let kinsol := tree.doKinematics q v
  match dynamics_f_ext transformSpatialForce t u kinsol sys.props 0 (fun _ => none) with
  | none => none
  | some f_ext =>
    match dynamics_C tree kinsol f_ext u with
    | none => none
    | some C =>
      let C := dynamics_contact sqrt tree kinsol v C
      let (prog, vdot) := dynamics_prog tree kinsol v C
      let sol := solve prog
      some (Fin.append
        ((tree.transformPositionDotMappingToVelocityMapping kinsol
          (1 : Matrix (Fin nq) (Fin nq) K)).mulVec v)
        (vdot.value sol nv))

end dynamics

/-! ## `RigidBodySystem::dynamics`: the inputs of the force elements -/

section force_elements

variable {K : Type} [LinearOrderedField K] {Cache Tf : Type}

/-- The value of `f_ext_i` (line 37) for the element `prop` when the one row of its
input `u_i` is `a`. -/
def f_ext_i (transformSpatialForce : Tf → SpatialForce K → SpatialForce K) (t : K)
    (kinsol : Cache) (prop : RigidBodyForceElement K Cache Tf) (a : K) : SpatialForce K :=
  transformSpatialForce prop.getFrame.transform_to_body (prop.output t (fun _ => a) kinsol)

/-- The forces of the elements of `props` that are attached to `body`, in declaration
order, where the element at position `i` of the list (counted from `u_index`) takes row
`i` of `u` as its input.  This is the sum the specification describes, term by term. -/
def attached_forces (transformSpatialForce : Tf → SpatialForce K → SpatialForce K) (t : K)
    (u : List K) (kinsol : Cache) :
    List (RigidBodyForceElement K Cache Tf) → Nat → Addr → List (SpatialForce K)
  | [], _, _ => []
  | prop :: rest, u_index, body =>
    if prop.getFrame.body = body then
      f_ext_i transformSpatialForce t kinsol prop (u.getD u_index 0) ::
        attached_forces transformSpatialForce t u kinsol rest (u_index + 1) body
    else attached_forces transformSpatialForce t u kinsol rest (u_index + 1) body

end force_elements

/-! ## `Drake::getInitialState` -/

/-- A value of type `double` that may be infinite (the saturation limits of a propellor,
the ends of a time span). -/
inductive Limit (K : Type) where
  | neg_infinity
  | finite (a : K)
  | infinity

/-- The members of `RigidBodyLoop` that `getInitialState` reads: the `frame_index` of
`frameA` and of `frameB`, and `axis`. -/
structure RigidBodyLoop (K : Type) where
  frameA_frame_index : Int
  frameB_frame_index : Int
  axis : Vector3 K

/-- The arguments of one call of the constructor of `RelativePositionConstraint`, after
the tree: the points, the two bounds, the two frame indices, `bTbp` and `tspan`. -/
structure RelativePositionConstraint (K : Type) where
  pts : Vector3 K
  lb : Vector3 K
  ub : Vector3 K
  bodyA_idx : Int
  bodyB_idx : Int
  bTbp : Fin 7 → K
  tspan : Limit K × Limit K

/-- What `inverseKin` writes through its reference arguments. -/
structure IKResult (K : Type) (nq : Nat) where
  q : Fin nq → K
  info : Int
  infeasible_constraint : List String

section getInitialState

variable {K : Type} [LinearOrderedField K] {Cache : Type}

/-- The vector `bTbp`: zero, with entry 3 set to `1.0` (line 124). -/
def bTbp : Fin 7 → K := fun j => if j.val = 3 then 1.0 else 0

/-- The two constraints made for one loop (lines 128-129). -/
def loop_constraints (loop : RigidBodyLoop K) : List (RelativePositionConstraint K) :=
  let tspan : Limit K × Limit K := (Limit.neg_infinity, Limit.infinity)
  let zero : Vector3 K := 0
  [⟨zero, zero, zero, loop.frameA_frame_index, loop.frameB_frame_index, bTbp, tspan⟩,
   ⟨loop.axis, loop.axis, loop.axis, loop.frameA_frame_index, loop.frameB_frame_index, bTbp,
     tspan⟩]

/-- The array `constraint_array` after the loop of lines 127-130: entries `2*i` and
`2*i+1` are the two constraints of loop `i`. -/
def constraint_array (loops : List (RigidBodyLoop K)) : List (RelativePositionConstraint K) :=
  loops.flatMap loop_constraints

/-- Source: `std::endl`, as the text it writes. -/
def endl : String := "\n"

/-- What lines 140-148 write to `std::cout`, piece by piece. -/
def infeasible_report (info : Int) (infeasible_constraint : List String) : List String :=
  if 10 ≤ info then
    let limit := infeasible_constraint.length
    ["INFO = ", toString info, endl,
      toString infeasible_constraint.length, " infeasible constraints:"] ++
    (if 5 < limit then [" (only printing first 5)", endl] else []) ++
    [endl] ++
    ((List.range (if 5 < limit then 5 else limit)).flatMap fun i =>
      [infeasible_constraint.getD i "", endl])
  else []

/-- The function `Drake::getInitialState`: the state it returns and what it writes to
`std::cout`.  `random` is the value of `Matrix<double,Dynamic,1>::Random(nq+nv)`, `loops`
is `sys.tree->loops`, and `inverseKin` (declared outside the two files) is a parameter
that receives the seed, the nominal posture, `num_constraints` and the constraint array. -/
def getInitialState (tree : RigidBodyTree K Cache) (loops : List (RigidBodyLoop K))
    (random : Fin (tree.num_positions + tree.num_velocities) → K)
    (inverseKin : (Fin tree.num_positions → K) → (Fin tree.num_positions → K) → Nat →
      List (RelativePositionConstraint K) → IKResult K tree.num_positions) :
    (Fin (tree.num_positions + tree.num_velocities) → K) × List String :=
  let x0 := random
  if tree.getNumPositionConstraints ≠ 0 then
    let num_constraints := 2 * loops.length
    let q_guess := x_q x0
    let r := inverseKin q_guess q_guess num_constraints (constraint_array loops)
    let out := infeasible_report r.info r.infeasible_constraint
    let x0 := Fin.append r.q (0 : Fin tree.num_velocities → K)
    (x0, out)
  else (x0, [])

end getInitialState

/-! ## `RigidBodySystem.cpp`: loading

TinyXML, `RigidBodyFrame`, the parsing helpers of `urdfParsingUtil.h` and the tree are
declared outside the two files.  An XML node is kept as its tag, attributes and child
elements; the other collaborators are the fields of `LoadEnv`. -/

/-- An XML element, as the calls of TinyXML in the file see it: `Value()` (the tag), the
attributes in order, and the child elements in document order.  A document is an element
whose children are the top-level elements. -/
inductive TiXmlElement where
  | mk (value : String) (attributes : List (String × String)) (children : List TiXmlElement)

namespace TiXmlElement

def Value : TiXmlElement → String
  | mk v _ _ => v

def attributes : TiXmlElement → List (String × String)
  | mk _ a _ => a

def children : TiXmlElement → List TiXmlElement
  | mk _ _ c => c

/-- Source: `Attribute(name)`; `none` is the null pointer it returns when there is no
such attribute. -/
def Attribute (e : TiXmlElement) (name : String) : Option String :=
  (e.attributes.find? fun p => p.1 == name).map Prod.snd

/-- Source: `FirstChildElement(tag)`; `none` is the null pointer. -/
def FirstChildElement (e : TiXmlElement) (tag : String) : Option TiXmlElement :=
  e.children.find? fun c => c.Value == tag

/-- The elements that `FirstChildElement(tag)` and then `NextSiblingElement(tag)`, called
until it returns null, visit: the children with this tag, in document order. -/
def ChildElements (e : TiXmlElement) (tag : String) : List TiXmlElement :=
  e.children.filter fun c => c.Value == tag

end TiXmlElement

/-- The errors the loading code throws (each a `std::runtime_error` in the source). -/
inductive LoadError where
  /-- The propellor with this name "is missing the parent node". -/
  | missing_parent (name : String)
  /-- The text "ERROR: axis is zero." -/
  | axis_is_zero
  /-- The text "ERROR: This urdf does not contain a robot tag". -/
  | no_robot_tag
  /-- The text "Error: your robot must have a name attribute". -/
  | no_robot_name
  deriving DecidableEq

/-- How a call ends: it returns, it throws, or its behaviour is undefined (a
`std::string` made from a null pointer). -/
inductive Outcome (α : Type) where
  | ok (a : α)
  | throws (e : LoadError)
  | undefined

/-- The members of `RigidBodyPropellor` that its constructor sets. -/
structure RigidBodyPropellor (K : Type) (Tf : Type) where
  name : String
  frame : RigidBodyFrame Tf
  axis : Vector3 K
  scale_factor_thrust : K
  scale_factor_moment : K
  lower_limit : Limit K
  upper_limit : Limit K

/-- The part of the system that loading changes: the tree (of type `T`) and the
registered force elements, in the order of registration. -/
structure LoadState (K : Type) (Tf : Type) (T : Type) where
  tree : T
  props : List (RigidBodyPropellor K Tf)

/-- The collaborators of the loading code. -/
structure LoadEnv (K : Type) (Tf : Type) (T : Type) where
  sqrt : K → K
  /-- The constructor `RigidBodyFrame(tree, parent_node, origin_node, name)`. -/
  makeFrame : T → TiXmlElement → Option TiXmlElement → String → RigidBodyFrame Tf
  /-- Source: `tree->addFrame(frame)`. -/
  addFrame : T → RigidBodyFrame Tf → T
  /-- What reading three numbers from the text of an attribute does to a vector. -/
  parseVector : String → Vector3 K → Vector3 K
  /-- What reading a number from the text of an attribute does to a scalar. -/
  parseScalar : String → K → K
  /-- The same for a scalar that may be infinite. -/
  parseLimit : String → Limit K → Limit K
  /-- Source: `tree->addRobotFromURDFString(xml_string, root_dir, floating_base_type)`. -/
  treeAddRobot : String → String → Nat → T → T
  /-- Source: `xml_doc.Parse(xml_string.c_str())`. -/
  Parse : String → TiXmlElement

section loading

variable {K : Type} [LinearOrderedField K] {Tf T : Type}

/-- Modelled from the spec: `parseVectorAttribute(node, attribute_name, val)` is declared
in `urdfParsingUtil.h`.  An attribute that is there is read into `val`; without the
attribute `val` keeps its value (the default). -/
def parseVectorAttribute (env : LoadEnv K Tf T) (node : TiXmlElement) (attribute_name : String)
    (val : Vector3 K) : Vector3 K :=
  match node.Attribute attribute_name with
  | some attr => env.parseVector attr val
  | none => val

/-- Modelled from the spec: `parseScalarAttribute(node, attribute_name, val)` is declared
in `urdfParsingUtil.h`.  An attribute that is there is read into `val`; without the
attribute `val` keeps its value (the default). -/
def parseScalarAttribute (env : LoadEnv K Tf T) (node : TiXmlElement) (attribute_name : String)
    (val : K) : K :=
  match node.Attribute attribute_name with
  | some attr => env.parseScalar attr val
  | none => val

/-- The same helper, for a scalar that may be infinite. -/
def parseLimitAttribute (env : LoadEnv K Tf T) (node : TiXmlElement) (attribute_name : String)
    (val : Limit K) : Limit K :=
  match node.Attribute attribute_name with
  | some attr => env.parseLimit attr val
  | none => val

/-- Source: `axis.normalize()`, every entry divided by `axis.norm()`. -/
def normalize (sqrt : K → K) (axis : Vector3 K) : Vector3 K :=
  fun j => axis j / norm sqrt axis

/-- Lines 172-178: the axis of the propellor, or `none` when line 176 throws. -/
def propellor_axis (env : LoadEnv K Tf T) (node : TiXmlElement) : Option (Vector3 K) :=
  let axis : Vector3 K := ![1.0, 0.0, 0.0]
  match node.FirstChildElement "axis" with
  | some axis_node =>
    let axis := parseVectorAttribute env axis_node "xyz" axis
    if norm env.sqrt axis < 1e-8 then none else some (normalize env.sqrt axis)
  | none => some axis

namespace RigidBodyPropellor

/-- The constructor `RigidBodyPropellor(sys, node, name)` (lines 159-186): how it ends,
and the state of the system when it ends. -/
def construct (env : LoadEnv K Tf T) (sys : LoadState K Tf T) (node : TiXmlElement)
    (name : String) : Outcome (RigidBodyPropellor K Tf) × LoadState K Tf T :=
  let tree := sys.tree
  match node.FirstChildElement "parent" with
  | none => (Outcome.throws (LoadError.missing_parent name), sys)
  | some parent_node =>
    let frame := env.makeFrame tree parent_node (node.FirstChildElement "origin") (name ++ "Frame")
    let sys := { sys with tree := env.addFrame tree frame }
    match propellor_axis env node with
    | none => (Outcome.throws LoadError.axis_is_zero, sys)
    | some axis =>
      (Outcome.ok
        { name := name
          frame := frame
          axis := axis
          scale_factor_thrust := parseScalarAttribute env node "scale_factor_thrust" 1.0
          scale_factor_moment := parseScalarAttribute env node "scale_factor_moment" 1.0
          lower_limit := parseLimitAttribute env node "lower_limit" Limit.neg_infinity
          upper_limit := parseLimitAttribute env node "upper_limit" Limit.infinity },
        sys)

end RigidBodyPropellor

/-- The function `parseForceElement(sys, node)` (lines 188-194).  Registration
(`sys->addForceElement`) puts the new element after those already registered. -/
def parseForceElement (env : LoadEnv K Tf T) (sys : LoadState K Tf T) (node : TiXmlElement) :
    Outcome Unit × LoadState K Tf T :=
  match node.Attribute "name" with
  | none => (Outcome.undefined, sys)
  | some name =>
    match node.FirstChildElement "propellor" with
    | some propellor_node =>
      match RigidBodyPropellor.construct env sys propellor_node name with
      | (Outcome.ok prop, sys) => (Outcome.ok (), { sys with props := sys.props ++ [prop] })
      | (Outcome.throws e, sys) => (Outcome.throws e, sys)
      | (Outcome.undefined, sys) => (Outcome.undefined, sys)
    | none => (Outcome.ok (), sys)

/-- The loop of lines 203-204 over the `force_element` children still to visit. -/
def parseForceElements (env : LoadEnv K Tf T) :
    List TiXmlElement → LoadState K Tf T → Outcome Unit × LoadState K Tf T
  | [], sys => (Outcome.ok (), sys)
  | force_node :: rest, sys =>
    match parseForceElement env sys force_node with
    | (Outcome.ok _, sys) => parseForceElements env rest sys
    | (Outcome.throws e, sys) => (Outcome.throws e, sys)
    | (Outcome.undefined, sys) => (Outcome.undefined, sys)

/-- The function `parseRobot(sys, node)` (lines 196-205). -/
def parseRobot (env : LoadEnv K Tf T) (sys : LoadState K Tf T) (node : TiXmlElement) :
    Outcome Unit × LoadState K Tf T :=
  match node.Attribute "name" with
  | none => (Outcome.throws LoadError.no_robot_name, sys)
  | some _ => parseForceElements env (node.ChildElements "force_element") sys

/-- The function `parseURDF(sys, xml_doc)` (lines 207-213). -/
def parseURDF (env : LoadEnv K Tf T) (sys : LoadState K Tf T) (xml_doc : TiXmlElement) :
    Outcome Unit × LoadState K Tf T :=
  match xml_doc.FirstChildElement "robot" with
  | none => (Outcome.throws LoadError.no_robot_tag, sys)
  | some node => parseRobot env sys node

/-- The method `RigidBodySystem::addRobotFromURDFString` (lines 215-224). -/
def addRobotFromURDFString (env : LoadEnv K Tf T) (sys : LoadState K Tf T)
    (xml_string root_dir : String) (floating_base_type : Nat) :
    Outcome Unit × LoadState K Tf T :=
  let sys := { sys with tree := env.treeAddRobot xml_string root_dir floating_base_type sys.tree }
  let xml_doc := env.Parse xml_string
  parseURDF env sys xml_doc

end loading

section loading_predicates

variable {K : Type} [LinearOrderedField K] {Tf T : Type}

/-- The `force_element` node `fe` makes none of the failures of `parseForceElement`: it
has a name and, if it has a `propellor` child, that child has a `parent` child and an
axis that is not rejected. -/
def force_element_loads (env : LoadEnv K Tf T) (fe : TiXmlElement) : Bool :=
  (fe.Attribute "name").isSome &&
    match fe.FirstChildElement "propellor" with
    | some propellor_node =>
      (propellor_node.FirstChildElement "parent").isSome &&
        (propellor_axis env propellor_node).isSome
    | none => true

/-- The `force_element` node `fe` has a `propellor` child. -/
def has_propellor (fe : TiXmlElement) : Bool :=
  (fe.FirstChildElement "propellor").isSome

end loading_predicates

section loading_relation

variable {K : Type} [LinearOrderedField K] {Tf T : Type}

/-- The registered force element `prop` comes from the `force_element` node `fe`: it has
the name of `fe` and the axis that the `propellor` child of `fe` declares. -/
def registered_from (env : LoadEnv K Tf T) (prop : RigidBodyPropellor K Tf)
    (fe : TiXmlElement) : Prop :=
  fe.Attribute "name" = some prop.name ∧
    ∃ propellor_node, fe.FirstChildElement "propellor" = some propellor_node ∧
      propellor_axis env propellor_node = some prop.axis

end loading_relation

/-! ## The axis of a propellor, with the overflow of `double`

The exact field of the other sections has no infinity, so it cannot show what lines
175-177 do when `axis.norm()` overflows.  Here a `double` is a finite value, an infinity
or not-a-number; finite results are kept exactly (rounding is not modelled, signed zeros
are not told apart), and a result whose magnitude reaches `2^1024` overflows. -/

/-- A value of type `double`: finite, plus or minus infinity, or not-a-number. -/
inductive Double where
  | finite (a : ℚ)
  | infinity
  | neg_infinity
  | nan
  deriving DecidableEq

namespace Double

/-- The `double` that an operation with the exact result `a` gives: an infinity when
the magnitude of `a` reaches `2^1024`. -/
def overflow (a : ℚ) : Double :=
  if 2 ^ 1024 ≤ a then infinity else if a ≤ -2 ^ 1024 then neg_infinity else finite a

/-- The product of two `double`s. -/
def mul : Double → Double → Double
  | finite a, finite b => overflow (a * b)
  | finite a, infinity => if 0 < a then infinity else if a < 0 then neg_infinity else nan
  | finite a, neg_infinity => if 0 < a then neg_infinity else if a < 0 then infinity else nan
  | infinity, finite b => if 0 < b then infinity else if b < 0 then neg_infinity else nan
  | neg_infinity, finite b => if 0 < b then neg_infinity else if b < 0 then infinity else nan
  | infinity, infinity => infinity
  | infinity, neg_infinity => neg_infinity
  | neg_infinity, infinity => neg_infinity
  | neg_infinity, neg_infinity => infinity
  | nan, _ => nan
  | _, nan => nan

/-- The sum of two `double`s. -/
def add : Double → Double → Double
  | finite a, finite b => overflow (a + b)
  | finite _, infinity => infinity
  | finite _, neg_infinity => neg_infinity
  | infinity, finite _ => infinity
  | neg_infinity, finite _ => neg_infinity
  | infinity, infinity => infinity
  | neg_infinity, neg_infinity => neg_infinity
  | infinity, neg_infinity => nan
  | neg_infinity, infinity => nan
  | nan, _ => nan
  | _, nan => nan

/-- The quotient of two `double`s; a finite value divided by an infinity is zero. -/
def div : Double → Double → Double
  | finite a, finite b =>
    if b = 0 then (if 0 < a then infinity else if a < 0 then neg_infinity else nan)
    else overflow (a / b)
  | finite _, infinity => finite 0
  | finite _, neg_infinity => finite 0
  | infinity, finite b => if 0 ≤ b then infinity else neg_infinity
  | neg_infinity, finite b => if 0 ≤ b then neg_infinity else infinity
  | infinity, infinity => nan
  | infinity, neg_infinity => nan
  | neg_infinity, infinity => nan
  | neg_infinity, neg_infinity => nan
  | nan, _ => nan
  | _, nan => nan

/-- The square root of a `double`; `sqrtq` is the square root of a finite value that is
not negative. -/
def sqrt (sqrtq : ℚ → ℚ) : Double → Double
  | finite a => if a < 0 then nan else finite (sqrtq a)
  | infinity => infinity
  | neg_infinity => nan
  | nan => nan

/-- The comparison `<` of two `double`s; it is false when a side is not-a-number. -/
def lt : Double → Double → Bool
  | finite a, finite b => decide (a < b)
  | finite _, infinity => true
  | neg_infinity, finite _ => true
  | neg_infinity, infinity => true
  | _, _ => false

/-- The method `norm()` of Eigen on a vector of three `double`s: the square root of
`squaredNorm()`, the sum of the squared entries. -/
def norm (sqrtq : ℚ → ℚ) (w : Fin 3 → Double) : Double :=
  sqrt sqrtq (add (add (mul (w 0) (w 0)) (mul (w 1) (w 1))) (mul (w 2) (w 2)))

/-- Source: `axis.normalize()`, every entry divided by `axis.norm()`. -/
def normalize (sqrtq : ℚ → ℚ) (axis : Fin 3 → Double) : Fin 3 → Double :=
  fun j => div (axis j) (norm sqrtq axis)

end Double

/-- Lines 172-178 on `double`s with overflow: the axis of the propellor, or `none` when
line 176 throws.  `parseVector` is what reading the text of `xyz` does to the vector. -/
def propellor_axis_double (sqrtq : ℚ → ℚ)
    (parseVector : String → (Fin 3 → Double) → (Fin 3 → Double)) (node : TiXmlElement) :
    Option (Fin 3 → Double) :=
  let axis : Fin 3 → Double := ![Double.finite 1.0, Double.finite 0.0, Double.finite 0.0]
  match node.FirstChildElement "axis" with
  | some axis_node =>
    let axis :=
      match axis_node.Attribute "xyz" with
      | some attr => parseVector attr axis
      | none => axis
    if Double.lt (Double.norm sqrtq axis) (Double.finite 1e-8) then none
    else some (Double.normalize sqrtq axis)
  | none => some axis

/-! ## Concrete inputs -/

/-- Two unrelated bodies: body `0` is in group 1 and ignores group 2, every other body
is in group 2; no body has a parent or a joint. -/
def unrelatedStore : Store := fun a =>
  if a = 0 then ⟨none, 1, 2, none⟩ else ⟨none, 2, 0, none⟩

/-- A parent (body `0`) and its child (body `1`, and every other address), joined by a
joint that is floating or not as `floating` says; all masks are empty. -/
def parentChildStore (floating : Bool) : Store := fun a =>
  if a = 0 then ⟨none, 0, 0, none⟩ else ⟨some ⟨floating⟩, 0, 0, some 0⟩

/-- A tree with one position and one velocity, no actuator, `nc` position constraints,
and one candidate contact pair whose signed distance is `phi0`.  The kinematics cache
carries no data. -/
def exampleTree (nc : Nat) (phi0 : ℚ) : RigidBodyTree ℚ Unit where
  num_positions := 1
  num_velocities := 1
  num_actuators := 0
  getNumPositionConstraints := nc
  B := 0
  doKinematics := fun _ _ => ()
  massMatrix := fun _ _ _ => 2
  dynamicsBiasTerm := fun _ _ _ => 3
  collisionDetect := fun _ =>
    ⟨1, fun _ => phi0, fun _ => ![0, 0, 1], fun _ => 0, fun _ => 0, fun _ => 0, fun _ => 1⟩
  forwardKinJacobian := fun _ _ body_idx => if body_idx = 0 then fun _ _ => 1 else 0
  positionConstraints := fun _ _ => 0
  positionConstraintsJacobian := fun _ _ _ => 1
  positionConstraintsJacDotTimesV := fun _ _ => 0
  transformPositionDotMappingToVelocityMapping := fun _ A => A

/-- A system on `exampleTree 0 (1/2)` (no actuator, no interpenetrating contact, no
position constraint) with one force element on body `0`. -/
def exampleSystem : RigidBodySystem ℚ Unit Unit where
  tree := exampleTree 0 (1 / 2)
  props := [⟨⟨0, ()⟩, fun _ u_i _ _ => u_i 0⟩]

/-- Three force elements: the first and the third on body `0`, the second on body `1`;
each gives its input on all six entries of its spatial force. -/
def exampleProps : List (RigidBodyForceElement ℚ Unit Unit) :=
  [⟨⟨0, ()⟩, fun _ u_i _ _ => u_i 0⟩, ⟨⟨1, ()⟩, fun _ u_i _ _ => u_i 0⟩,
   ⟨⟨0, ()⟩, fun _ u_i _ _ => u_i 0⟩]

/-- A tree as `exampleTree 0 (1/2)`, with two actuators whose inputs both act on the
one velocity. -/
def actuatedTree : RigidBodyTree ℚ Unit where
  num_positions := 1
  num_velocities := 1
  num_actuators := 2
  getNumPositionConstraints := 0
  B := fun _ _ => 1
  doKinematics := fun _ _ => ()
  massMatrix := fun _ _ _ => 2
  dynamicsBiasTerm := fun _ _ _ => 3
  collisionDetect := fun _ =>
    ⟨1, fun _ => 1 / 2, fun _ => ![0, 0, 1], fun _ => 0, fun _ => 0, fun _ => 0, fun _ => 1⟩
  forwardKinJacobian := fun _ _ body_idx => if body_idx = 0 then fun _ _ => 1 else 0
  positionConstraints := fun _ _ => 0
  positionConstraintsJacobian := fun _ _ _ => 1
  positionConstraintsJacDotTimesV := fun _ _ => 0
  transformPositionDotMappingToVelocityMapping := fun _ A => A

/-- Collaborators for the loading examples: the tree is its list of frames, `addFrame`
appends, every frame is on body `0`, the text `0 0 0` reads as the zero vector and
`3 0 4` as `[3, 0, 4]`, and scalar attributes are left unread. -/
def exampleEnv (K : Type) [LinearOrderedField K] (sqrt : K → K) :
    LoadEnv K Unit (List (RigidBodyFrame Unit)) where
  sqrt := sqrt
  makeFrame := fun _ _ _ _ => ⟨0, ()⟩
  addFrame := fun tree frame => tree ++ [frame]
  parseVector := fun s val =>
    if s = "0 0 0" then 0 else if s = "3 0 4" then ![3, 0, 4] else val
  parseScalar := fun _ val => val
  parseLimit := fun _ val => val
  treeAddRobot := fun _ _ _ tree => tree
  Parse := fun _ => TiXmlElement.mk "" [] []

/-- A `propellor` node with a parent and the axis text `xyz`. -/
def propellorNode (xyz : String) : TiXmlElement :=
  TiXmlElement.mk "propellor" []
    [TiXmlElement.mk "parent" [("link", "base")] [],
     TiXmlElement.mk "axis" [("xyz", xyz)] []]

/-- A `propellor` node with no child at all, so with no parent. -/
def orphanPropellorNode : TiXmlElement :=
  TiXmlElement.mk "propellor" [] []

/-- A document whose robot has a name and the given `force_element` children. -/
def robotDocument (force_elements : List TiXmlElement) : TiXmlElement :=
  TiXmlElement.mk "" [] [TiXmlElement.mk "robot" [("name", "r")] force_elements]

/-- A `force_element` node with a name and the given children. -/
def forceElementNode (name : String) (children : List TiXmlElement) : TiXmlElement :=
  TiXmlElement.mk "force_element" [("name", name)] children

/-- The empty system of the loading examples. -/
def emptyLoadState (K : Type) : LoadState K Unit (List (RigidBodyFrame Unit)) :=
  ⟨[], []⟩

/-- Reading the text of `xyz` into three `double`s, for the examples: `1e200 0 0` reads
as `[10^200, 0, 0]`, `0 0 2` as `[0, 0, 2]`, any other text leaves the vector as it is. -/
def exampleParseVectorDouble (s : String) (val : Fin 3 → Double) : Fin 3 → Double :=
  if s = "1e200 0 0" then ![Double.finite (10 ^ 200), Double.finite 0, Double.finite 0]
  else if s = "0 0 2" then ![Double.finite 0, Double.finite 0, Double.finite 2]
  else val

/-! ## Collision filter: theorems -/

namespace RigidBody

theorem any_eq_true_iff (m : DrakeCollision.bitmask) :
    DrakeCollision.bitmask.any m = true ↔ m ≠ 0 := by
  simp [DrakeCollision.bitmask.any]

theorem adjacentTo_comm (mem : Store) (a b : Addr) :
    adjacentTo mem a b = adjacentTo mem b a := by
  unfold adjacentTo
  exact Bool.or_comm _ _

theorem CollidesWith_comm (mem : Store) (a b : Addr) :
    CollidesWith mem a b = CollidesWith mem b a := by
  unfold CollidesWith getCollisionFilterGroup getCollisionFilterIgnores
  rw [adjacentTo_comm mem a b]
  have h : decide (a = b) = decide (b = a) := by
    by_cases hab : a = b
    · subst hab; rfl
    · have hba : ¬ b = a := fun h => hab h.symm
      simp [hab, hba]
  rw [h]
  cases decide (b = a) <;> cases adjacentTo mem b a <;>
    cases DrakeCollision.bitmask.any
      ((mem a).collision_filter_group &&& (mem b).collision_filter_ignores) <;>
    cases DrakeCollision.bitmask.any
      ((mem b).collision_filter_group &&& (mem a).collision_filter_ignores) <;> rfl

theorem CollidesWith_false_iff (mem : Store) (this other : Addr) :
    CollidesWith mem this other = false ↔
      (this = other ∨ adjacentTo mem this other = true ∨
        ((mem this).collision_filter_group &&& (mem other).collision_filter_ignores) ≠ 0 ∨
        ((mem other).collision_filter_group &&& (mem this).collision_filter_ignores) ≠ 0) := by
  unfold CollidesWith getCollisionFilterGroup getCollisionFilterIgnores
  simp only [Bool.not_eq_false', Bool.or_eq_true, decide_eq_true_eq, any_eq_true_iff]
  tauto

/-- C1: `CollidesWith(other)` returns false if and only if the two are the same body, or
`adjacentTo(other)` is true, or `this.group & other.ignores` has a bit set, or
`other.group & this.ignores` has a bit set; in every other case it returns true. -/
theorem CollidesWith_eq_false_iff (mem : Store) (this other : Addr) :
    (CollidesWith mem this other = false ↔
      (this = other ∨ adjacentTo mem this other = true ∨
        ((mem this).collision_filter_group &&& (mem other).collision_filter_ignores) ≠ 0 ∨
        ((mem other).collision_filter_group &&& (mem this).collision_filter_ignores) ≠ 0)) ∧
    (CollidesWith mem this other = true ↔
      ¬ (this = other ∨ adjacentTo mem this other = true ∨
        ((mem this).collision_filter_group &&& (mem other).collision_filter_ignores) ≠ 0 ∨
        ((mem other).collision_filter_group &&& (mem this).collision_filter_ignores) ≠ 0)) := by
  have key := CollidesWith_false_iff mem this other
  refine ⟨key, ?_⟩
  rw [← key]
  cases CollidesWith mem this other <;> simp

/-- C2: for bodies `A` and `B` neither of which is the parent of the other, whatever
their group and ignore masks are, `A.CollidesWith(B)` equals `B.CollidesWith(A)`. -/
theorem CollidesWith_symm_of_unrelated (mem : Store) (A B : Addr)
    (_hAB : has_as_parent mem A B = false) (_hBA : has_as_parent mem B A = false) :
    CollidesWith mem A B = CollidesWith mem B A :=
  CollidesWith_comm mem A B

theorem CollidesWith_symm_of_unrelated_witness :
    (has_as_parent unrelatedStore 0 1 = false ∧ has_as_parent unrelatedStore 1 0 = false) ∧
      CollidesWith unrelatedStore 0 1 = CollidesWith unrelatedStore 1 0 :=
  ⟨⟨by decide, by decide⟩,
    CollidesWith_symm_of_unrelated unrelatedStore 0 1 (by decide) (by decide)⟩

/-- C3: let `P` be the parent of `C`.  If the joint of `C` is not floating, then
`P.CollidesWith(C)` and `C.CollidesWith(P)` are both false, whatever the masks.  If the
joint of `C` is floating, `P` and `C` are distinct, `P` is not a non-floating child of
`C`, and neither group mask meets the other body's ignore mask, then
`P.CollidesWith(C)` is true. -/
theorem CollidesWith_parent_child (mem : Store) (P C : Addr)
    (hparent : has_as_parent mem C P = true) :
    (jointIsFloating mem C = false →
      CollidesWith mem P C = false ∧ CollidesWith mem C P = false) ∧
    (jointIsFloating mem C = true → P ≠ C →
      ¬ (has_as_parent mem P C = true ∧ jointIsFloating mem P = false) →
      (mem P).collision_filter_group &&& (mem C).collision_filter_ignores = 0 →
      (mem C).collision_filter_group &&& (mem P).collision_filter_ignores = 0 →
      CollidesWith mem P C = true) := by
  constructor
  · intro hfix
    have hadj : adjacentTo mem C P = true := by
      simp [adjacentTo, hparent, hfix]
    have h1 : CollidesWith mem C P = false :=
      (CollidesWith_false_iff mem C P).mpr (Or.inr (Or.inl hadj))
    exact ⟨by rw [CollidesWith_comm]; exact h1, h1⟩
  · intro hfloat hne hP hg1 hg2
    cases hc : CollidesWith mem P C
    · rcases (CollidesWith_false_iff mem P C).mp hc with h | h | h | h
      · exact absurd h hne
      · simp only [adjacentTo, Bool.or_eq_true, Bool.and_eq_true, Bool.not_eq_true',
          hfloat] at h
        rcases h with h | h
        · exact absurd h hP
        · simp at h
      · exact absurd hg1 h
      · exact absurd hg2 h
    · rfl

theorem CollidesWith_parent_child_witness :
    (has_as_parent (parentChildStore false) 1 0 = true ∧
      jointIsFloating (parentChildStore false) 1 = false ∧
      CollidesWith (parentChildStore false) 0 1 = false ∧
      CollidesWith (parentChildStore false) 1 0 = false) ∧
    (has_as_parent (parentChildStore true) 1 0 = true ∧
      jointIsFloating (parentChildStore true) 1 = true ∧
      CollidesWith (parentChildStore true) 0 1 = true) :=
  ⟨⟨by decide, by decide,
      (CollidesWith_parent_child (parentChildStore false) 0 1 (by decide)).1 (by decide)⟩,
    ⟨by decide, by decide,
      (CollidesWith_parent_child (parentChildStore true) 0 1 (by decide)).2
        (by decide) (by decide) (by decide) (by decide) (by decide)⟩⟩

/-- C4: for every body `A`, whatever its parent, joint, group mask and ignore mask are,
`A.CollidesWith(A)` is false. -/
theorem CollidesWith_self (mem : Store) (A : Addr) : CollidesWith mem A A = false :=
  (CollidesWith_false_iff mem A A).mpr (Or.inl rfl)

end RigidBody

/-! ## Contact forces: theorems -/

section contact

variable {K : Type} [LinearOrderedField K] {Cache : Type}

theorem fA_eq_add_friction (sqrt : K → K) (fn : K) (n tv : Vector3 K) :
    fA sqrt fn n tv = fn • n + friction sqrt fn tv := by
  funext j
  simp only [fA, friction, Pi.add_apply, Pi.smul_apply, smul_eq_mul]
  ring

/-- The force on body A is the normal part plus the friction part. -/
theorem contact_fA_eq (sqrt : K → K) {nv : Nat} (phi : K) (normal : Vector3 K)
    (JA JB : Matrix (Fin 3) (Fin nv) K) (v : Fin nv → K) :
    contact_fA sqrt phi normal JA JB v =
      contact_fA_normal phi normal JA JB v • normal + contact_friction sqrt phi normal JA JB v :=
  fA_eq_add_friction sqrt _ _ _

/-- C5: for a contact with `phi < 0` and zero relative velocity `(JA - JB) * v = 0`,
`fA_normal` is `-500 * phi` (a positive number), the friction part is the zero vector
and `fA = (-500 * phi) * normal`.  With `phi = -0.01` and normal `[0,0,1]`:
`fA_normal = 500 * 0.01 = 5.0`, the friction part is zero and
`fA = 5.0 * normal = [0, 0, 5.0]`. -/
theorem contact_force_of_zero_relative_velocity {nv : Nat} (sqrt : K → K) (phi : K)
    (normal : Vector3 K) (JA JB : Matrix (Fin 3) (Fin nv) K) (v : Fin nv → K)
    (hphi : phi < 0) (hrel : (JA - JB).mulVec v = 0) :
    (contact_fA_normal phi normal JA JB v = -500 * phi ∧
      0 < contact_fA_normal phi normal JA JB v ∧
      contact_friction sqrt phi normal JA JB v = 0 ∧
      contact_fA sqrt phi normal JA JB v = (-500 * phi) • normal) ∧
    (phi = -0.01 → normal = ![0, 0, 1] →
      contact_fA_normal phi normal JA JB v = 500 * 0.01 ∧
      contact_fA_normal phi normal JA JB v = 5.0 ∧
      contact_friction sqrt phi normal JA JB v = 0 ∧
      contact_fA sqrt phi normal JA JB v = (5.0 : K) • normal ∧
      contact_fA sqrt phi normal JA JB v = ![0, 0, 5.0]) := by
  have hrv : relative_velocity JA JB v = 0 := hrel
  have hfn : contact_fA_normal phi normal JA JB v = -500 * phi := by
    simp [contact_fA_normal, fA_normal, phidot, hrv]
  have htv : contact_tangential_velocity normal JA JB v = 0 := by
    simp [contact_tangential_velocity, tangential_velocity, phidot, hrv]
  have hfr : contact_friction sqrt phi normal JA JB v = 0 := by
    funext j
    simp [contact_friction, friction, htv]
  have hfA : contact_fA sqrt phi normal JA JB v = (-500 * phi) • normal := by
    rw [contact_fA_eq, hfr, hfn, add_zero]
  have hpos : 0 < contact_fA_normal phi normal JA JB v := by
    rw [hfn]; nlinarith
  refine ⟨⟨hfn, hpos, hfr, hfA⟩, ?_⟩
  intro hp hn
  have h5 : contact_fA_normal phi normal JA JB v = 5.0 := by
    rw [hfn, hp]; norm_num
  refine ⟨by rw [h5]; norm_num, h5, hfr, ?_, ?_⟩
  · rw [contact_fA_eq, hfr, h5, add_zero]
  · rw [contact_fA_eq, hfr, h5, add_zero, hn]
    funext j
    fin_cases j <;> simp

theorem contact_force_of_zero_relative_velocity_witness :
    ((-0.01 : ℚ) < 0 ∧ ((1 : Matrix (Fin 3) (Fin 3) ℚ) - 1).mulVec ![1, 2, 3] = 0) ∧
      contact_fA_normal (-0.01 : ℚ) ![0, 0, 1] (1 : Matrix (Fin 3) (Fin 3) ℚ) 1 ![1, 2, 3]
        = 5.0 ∧
      contact_fA Rat.sqrt (-0.01 : ℚ) ![0, 0, 1] (1 : Matrix (Fin 3) (Fin 3) ℚ) 1 ![1, 2, 3]
        = ![0, 0, 5.0] :=
  ⟨⟨by norm_num, by simp⟩,
    ((contact_force_of_zero_relative_velocity Rat.sqrt (-0.01 : ℚ) ![0, 0, 1]
      (1 : Matrix (Fin 3) (Fin 3) ℚ) 1 ![1, 2, 3] (by norm_num) (by simp)).2 rfl rfl).2.1,
    ((contact_force_of_zero_relative_velocity Rat.sqrt (-0.01 : ℚ) ![0, 0, 1]
      (1 : Matrix (Fin 3) (Fin 3) ℚ) 1 ![1, 2, 3] (by norm_num) (by simp)).2 rfl rfl).2.2.2.2⟩

/-- The friction part as the code computes it: `-(mu * fA_normal) * tangential_velocity /
(norm + 1e-12)`, with the signed `fA_normal`. -/
theorem contact_friction_apply (sqrt : K → K) {nv : Nat} (phi : K) (normal : Vector3 K)
    (JA JB : Matrix (Fin 3) (Fin nv) K) (v : Fin nv → K) (j : Fin 3) :
    contact_friction sqrt phi normal JA JB v j =
      -(1 * contact_fA_normal phi normal JA JB v * contact_tangential_velocity normal JA JB v j /
        (norm sqrt (contact_tangential_velocity normal JA JB v) + 1e-12)) := by
  simp only [contact_friction, friction]
  norm_num

/-- When `fA_normal` is not negative (and the square root is not negative), the friction
part is `mu * |fA_normal|` times `-tangential_velocity / (norm + 1e-12)`, and its dot
product with the tangential velocity is not positive. -/
theorem contact_friction_opposes_of_nonneg (sqrt : K → K) (hsqrt : ∀ a, 0 ≤ sqrt a)
    {nv : Nat} (phi : K) (normal : Vector3 K) (JA JB : Matrix (Fin 3) (Fin nv) K)
    (v : Fin nv → K) (hfn : 0 ≤ contact_fA_normal phi normal JA JB v) :
    (∀ j, contact_friction sqrt phi normal JA JB v j =
      1 * |contact_fA_normal phi normal JA JB v| *
        (-contact_tangential_velocity normal JA JB v j /
          (norm sqrt (contact_tangential_velocity normal JA JB v) + 1e-12))) ∧
    Matrix.dotProduct (contact_friction sqrt phi normal JA JB v)
      (contact_tangential_velocity normal JA JB v) ≤ 0 := by
  have hden : 0 < norm sqrt (contact_tangential_velocity normal JA JB v) + 1e-12 := by
    have h1 := hsqrt (Matrix.dotProduct (contact_tangential_velocity normal JA JB v)
      (contact_tangential_velocity normal JA JB v))
    have h2 : (0 : K) < 1e-12 := by norm_num
    exact add_pos_of_nonneg_of_pos h1 h2
  constructor
  · intro j
    rw [contact_friction_apply, abs_of_nonneg hfn]
    ring
  · unfold Matrix.dotProduct
    apply Finset.sum_nonpos
    intro j _
    rw [contact_friction_apply]
    have hsq : 0 ≤ contact_tangential_velocity normal JA JB v j *
        contact_tangential_velocity normal JA JB v j := mul_self_nonneg _
    have hq : 0 ≤ contact_fA_normal phi normal JA JB v *
        (contact_tangential_velocity normal JA JB v j *
          contact_tangential_velocity normal JA JB v j) /
        (norm sqrt (contact_tangential_velocity normal JA JB v) + 1e-12) :=
      div_nonneg (mul_nonneg hfn hsq) hden.le
    have heq : -(1 * contact_fA_normal phi normal JA JB v *
          contact_tangential_velocity normal JA JB v j /
          (norm sqrt (contact_tangential_velocity normal JA JB v) + 1e-12)) *
        contact_tangential_velocity normal JA JB v j =
        -(contact_fA_normal phi normal JA JB v *
          (contact_tangential_velocity normal JA JB v j *
            contact_tangential_velocity normal JA JB v j) /
          (norm sqrt (contact_tangential_velocity normal JA JB v) + 1e-12)) := by
      ring
    rw [heq]
    exact neg_nonpos.mpr hq

/-- C6, evaluated at a contact that is 1 cm deep (`phi = -0.01`, normal `[0,0,1]`) while
the bodies separate and slide (relative velocity `[1,0,1]`): `fA_normal` is `-45`, the
tangential velocity is `[1,0,0]`, and the friction part is `[45/(1+1e-12), 0, 0]`.  It
points along the tangential velocity (positive dot product), and it is not
`mu * |fA_normal|` times `-tangential_velocity / (norm + 1e-12)`. -/
theorem contact_friction_separating :
    contact_fA_normal (-0.01 : ℚ) ![0, 0, 1] (1 : Matrix (Fin 3) (Fin 3) ℚ) 0 ![1, 0, 1] = -45 ∧
    contact_tangential_velocity ![0, 0, 1] (1 : Matrix (Fin 3) (Fin 3) ℚ) 0 ![1, 0, 1]
      = ![1, 0, 0] ∧
    contact_friction Rat.sqrt (-0.01 : ℚ) ![0, 0, 1] (1 : Matrix (Fin 3) (Fin 3) ℚ) 0 ![1, 0, 1]
      = ![45 / (1 + 1e-12), 0, 0] ∧
    0 < Matrix.dotProduct
      (contact_friction Rat.sqrt (-0.01 : ℚ) ![0, 0, 1] (1 : Matrix (Fin 3) (Fin 3) ℚ) 0
        ![1, 0, 1])
      (contact_tangential_velocity ![0, 0, 1] (1 : Matrix (Fin 3) (Fin 3) ℚ) 0 ![1, 0, 1]) ∧
    contact_friction Rat.sqrt (-0.01 : ℚ) ![0, 0, 1] (1 : Matrix (Fin 3) (Fin 3) ℚ) 0 ![1, 0, 1] 0
      ≠ 1 * |contact_fA_normal (-0.01 : ℚ) ![0, 0, 1] (1 : Matrix (Fin 3) (Fin 3) ℚ) 0
            ![1, 0, 1]| *
          (-contact_tangential_velocity ![0, 0, 1] (1 : Matrix (Fin 3) (Fin 3) ℚ) 0
              ![1, 0, 1] 0 /
            (norm Rat.sqrt
              (contact_tangential_velocity ![0, 0, 1] (1 : Matrix (Fin 3) (Fin 3) ℚ) 0
                ![1, 0, 1]) + 1e-12)) := by
  have hrv : relative_velocity (1 : Matrix (Fin 3) (Fin 3) ℚ) 0 ![1, 0, 1] = ![1, 0, 1] := by
    simp [relative_velocity]
  have hpd : phidot (![1, 0, 1] : Vector3 ℚ) ![0, 0, 1] = 1 := by
    simp [phidot, Matrix.dotProduct, Fin.sum_univ_three]
  have hfn : contact_fA_normal (-0.01 : ℚ) ![0, 0, 1] (1 : Matrix (Fin 3) (Fin 3) ℚ) 0
      ![1, 0, 1] = -45 := by
    rw [contact_fA_normal, hrv, hpd]; norm_num [fA_normal]
  have htv : contact_tangential_velocity ![0, 0, 1] (1 : Matrix (Fin 3) (Fin 3) ℚ) 0
      ![1, 0, 1] = ![1, 0, 0] := by
    rw [contact_tangential_velocity, hrv, hpd]
    funext j; fin_cases j <;> simp [tangential_velocity]
  have hnorm : norm Rat.sqrt (![1, 0, 0] : Vector3 ℚ) = 1 := by
    have h1 : Matrix.dotProduct (![1, 0, 0] : Vector3 ℚ) ![1, 0, 0] = 1 := by
      simp [Matrix.dotProduct, Fin.sum_univ_three]
    rw [norm, h1]; decide
  have hfr : contact_friction Rat.sqrt (-0.01 : ℚ) ![0, 0, 1] (1 : Matrix (Fin 3) (Fin 3) ℚ) 0
      ![1, 0, 1] = ![45 / (1 + 1e-12), 0, 0] := by
    rw [contact_friction, hfn, htv]
    funext j
    simp only [friction, hnorm]
    fin_cases j <;> norm_num
  refine ⟨hfn, htv, hfr, ?_, ?_⟩
  · rw [hfr, htv]
    norm_num [Matrix.dotProduct, Fin.sum_univ_three]
  · rw [hfr, hfn, htv, hnorm]
    norm_num

theorem foldl_contact_step (sqrt : K → K) (tree : RigidBodyTree K Cache) (kinsol : Cache)
    (v : Fin tree.num_velocities → K) (cp : ContactPairs K) (l : List (Fin cp.rows))
    (C : Fin tree.num_velocities → K) :
    l.foldl (dynamics_contact_step sqrt tree kinsol v cp) C =
      C - (l.map fun i =>
        if cp.phi i < 0 then contact_generalized_force sqrt tree kinsol v cp i else 0).sum := by
  induction l generalizing C with
  | nil => simp
  | cons i l ih =>
    rw [List.foldl_cons, ih, List.map_cons, List.sum_cons]
    by_cases h : cp.phi i < 0
    · simp only [dynamics_contact_step, contact_generalized_force, h, if_true]
      abel
    · simp only [dynamics_contact_step, h, if_false]
      abel

/-- C7: the contact loop turns `C` into `C` minus the sum, over exactly the pairs `i`
with `phi_i < 0`, of `JA_i^T * fA_i - JB_i^T * fA_i`; this term is
`(JA_i - JB_i)^T * fA_i`, with the same `fA_i = fA_normal * normal + friction` for both
Jacobians; one pass of the loop body subtracts the term when `phi_i < 0` and leaves `C`
as it is otherwise (so also when `phi_i = 0`). -/
theorem dynamics_contact_eq (sqrt : K → K) (tree : RigidBodyTree K Cache) (kinsol : Cache)
    (v : Fin tree.num_velocities → K) (C : Fin tree.num_velocities → K) :
    dynamics_contact sqrt tree kinsol v C =
      C - ∑ i in Finset.univ.filter (fun i => (tree.collisionDetect kinsol).phi i < 0),
        contact_generalized_force sqrt tree kinsol v (tree.collisionDetect kinsol) i ∧
    (∀ (cp : ContactPairs K) (i : Fin cp.rows),
      contact_generalized_force sqrt tree kinsol v cp i =
        (contact_JA tree kinsol cp i).transpose.mulVec
            (contact_fA sqrt (cp.phi i) (cp.normal i) (contact_JA tree kinsol cp i)
              (contact_JB tree kinsol cp i) v) -
          (contact_JB tree kinsol cp i).transpose.mulVec
            (contact_fA sqrt (cp.phi i) (cp.normal i) (contact_JA tree kinsol cp i)
              (contact_JB tree kinsol cp i) v) ∧
      contact_generalized_force sqrt tree kinsol v cp i =
        (contact_JA tree kinsol cp i - contact_JB tree kinsol cp i).transpose.mulVec
          (contact_fA sqrt (cp.phi i) (cp.normal i) (contact_JA tree kinsol cp i)
            (contact_JB tree kinsol cp i) v) ∧
      contact_fA sqrt (cp.phi i) (cp.normal i) (contact_JA tree kinsol cp i)
          (contact_JB tree kinsol cp i) v =
        contact_fA_normal (cp.phi i) (cp.normal i) (contact_JA tree kinsol cp i)
            (contact_JB tree kinsol cp i) v • cp.normal i +
          contact_friction sqrt (cp.phi i) (cp.normal i) (contact_JA tree kinsol cp i)
            (contact_JB tree kinsol cp i) v) ∧
    (∀ (cp : ContactPairs K) (C' : Fin tree.num_velocities → K) (i : Fin cp.rows),
      dynamics_contact_step sqrt tree kinsol v cp C' i =
        if cp.phi i < 0 then C' - contact_generalized_force sqrt tree kinsol v cp i else C') ∧
    (∀ (cp : ContactPairs K) (C' : Fin tree.num_velocities → K) (i : Fin cp.rows),
      dynamics_contact_step sqrt tree kinsol v cp C' i =
        if 0 ≤ cp.phi i then C' else C' - contact_generalized_force sqrt tree kinsol v cp i) := by
  refine ⟨?_, ?_, ?_, ?_⟩
  · rw [dynamics_contact, foldl_contact_step, Finset.sum_filter, Fin.sum_univ_def]
  · intro cp i
    refine ⟨rfl, ?_, contact_fA_eq sqrt _ _ _ _ _⟩
    rw [Matrix.transpose_sub, Matrix.sub_mulVec]
    rfl
  · intro cp C' i
    rfl
  · intro cp C' i
    by_cases h : cp.phi i < 0
    · have h' : ¬ 0 ≤ cp.phi i := not_le.mpr h
      simp only [dynamics_contact_step, contact_generalized_force, h, h', if_true, if_false]
    · have h' : 0 ≤ cp.phi i := not_lt.mp h
      simp only [dynamics_contact_step, h, h', if_true, if_false]

end contact

/-! ## Assembly of the optimization problem: theorems -/

section assembly

variable {K : Type} [LinearOrderedField K] {Cache Tf : Type}

theorem augmented_cols {nv nc : Nat} (H : Matrix (Fin nv) (Fin nv) K)
    (J : Matrix (Fin nc) (Fin nv) K) : (augmented H J).cols = nv + nc := rfl

theorem augmented_left {nv nc : Nat} (H : Matrix (Fin nv) (Fin nv) K)
    (J : Matrix (Fin nc) (Fin nv) K) (i : Fin nv) (j : Fin nv) :
    (augmented H J).coeff i (Fin.castAdd nc j) = H i j := by
  have hj : ¬ (nv + nc - nc ≤ j.val) := by have := j.isLt; omega
  simp [augmented, MatrixXd.setRightCols, MatrixXd.conservativeResize, MatrixXd.ofMatrix, hj]

theorem augmented_right {nv nc : Nat} (H : Matrix (Fin nv) (Fin nv) K)
    (J : Matrix (Fin nc) (Fin nv) K) (i : Fin nv) (j : Fin nc) :
    (augmented H J).coeff i (Fin.natAdd nv j) = -J j i := by
  have hj : nv + nc - nc ≤ nv + j.val ∧ nv + j.val - (nv + nc - nc) < nc := by
    have := j.isLt; omega
  have hidx : (⟨nv + j.val - (nv + nc - nc), hj.2⟩ : Fin nc) = j := by
    apply Fin.ext; simp
  simp only [augmented, MatrixXd.setRightCols, MatrixXd.conservativeResize, MatrixXd.ofMatrix,
    Fin.coe_natAdd]
  rw [dif_pos hj, hidx]
  simp

theorem dynamics_prog_of_pos (tree : RigidBodyTree K Cache) (kinsol : Cache)
    (v : Fin tree.num_velocities → K) (C : Fin tree.num_velocities → K)
    (hnc : tree.getNumPositionConstraints ≠ 0) :
    dynamics_prog tree kinsol v C =
      (⟨[(tree.num_velocities, "vdot"),
          (tree.getNumPositionConstraints, "position constraint force")],
        [⟨tree.getNumPositionConstraints, tree.num_velocities,
            tree.positionConstraintsJacobian kinsol,
            position_constraint_rhs (tree.positionConstraintsJacobian kinsol)
              (tree.positionConstraintsJacDotTimesV kinsol) (tree.positionConstraints kinsol) v,
            [⟨0, tree.num_velocities⟩]⟩,
          ⟨tree.num_velocities, tree.num_velocities + tree.getNumPositionConstraints,
            (augmented (tree.massMatrix kinsol) (tree.positionConstraintsJacobian kinsol)).coeff,
            -C,
            [⟨0, tree.num_velocities⟩,
              ⟨tree.num_velocities, tree.getNumPositionConstraints⟩]⟩]⟩,
        ⟨0, tree.num_velocities⟩) := by
  unfold dynamics_prog
  simp only [if_pos hnc]
  simp [OptimizationProblem.addContinuousVariables, OptimizationProblem.addLinearEqualityConstraint,
    OptimizationProblem.addLinearEqualityConstraintAll, OptimizationProblem.viewsFrom,
    OptimizationProblem.num_vars, MatrixXd.ofMatrix, augmented, MatrixXd.setRightCols,
    MatrixXd.conservativeResize]

theorem dynamics_prog_of_zero (tree : RigidBodyTree K Cache) (kinsol : Cache)
    (v : Fin tree.num_velocities → K) (C : Fin tree.num_velocities → K)
    (hnc : tree.getNumPositionConstraints = 0) :
    dynamics_prog tree kinsol v C =
      (⟨[(tree.num_velocities, "vdot")],
        [⟨tree.num_velocities, tree.num_velocities, tree.massMatrix kinsol, -C,
            [⟨0, tree.num_velocities⟩]⟩]⟩,
        ⟨0, tree.num_velocities⟩) := by
  unfold dynamics_prog
  have h : ¬ tree.getNumPositionConstraints ≠ 0 := by simp [hnc]
  simp only [if_neg h]
  simp [OptimizationProblem.addContinuousVariables, OptimizationProblem.addLinearEqualityConstraint,
    OptimizationProblem.addLinearEqualityConstraintAll, OptimizationProblem.viewsFrom,
    OptimizationProblem.num_vars, MatrixXd.ofMatrix]

theorem gather_one_getD (sol : Nat → K) (s n j : Nat) (hj : j < n) :
    (gather sol [⟨s, n⟩]).getD j 0 = sol (s + j) := by
  simp [gather, List.getD_eq_getElem?_getD, List.getElem?_map, List.getElem?_range hj]

theorem gather_two_getD_left (sol : Nat → K) (s n s' n' j : Nat) (hj : j < n) :
    (gather sol [⟨s, n⟩, ⟨s', n'⟩]).getD j 0 = sol (s + j) := by
  have hlen : j < ((List.range n).map fun k => sol (s + k)).length := by simpa using hj
  simp [gather, List.getD_eq_getElem?_getD, List.getElem?_append_left hlen, List.getElem?_map,
    List.getElem?_range hj]

theorem gather_two_getD_right (sol : Nat → K) (s n s' n' j : Nat) (hj : j < n') :
    (gather sol [⟨s, n⟩, ⟨s', n'⟩]).getD (n + j) 0 = sol (s' + j) := by
  have hlen : ((List.range n).map fun k => sol (s + k)).length ≤ n + j := by simp
  simp [gather, List.getD_eq_getElem?_getD, List.getElem?_append_right hlen, List.getElem?_map,
    List.getElem?_range hj]

/-- A constraint on one block holds exactly when `A * (value of the block) = b`. -/
theorem holds_block {m n : Nat} (A : Matrix (Fin m) (Fin n) K) (b : Fin m → K) (s : Nat)
    (sol : Nat → K) :
    (⟨m, n, A, b, [⟨s, n⟩]⟩ : LinearEqualityConstraint K).holds sol ↔
      A.mulVec ((⟨s, n⟩ : DecisionVariableView).value sol n) = b := by
  unfold LinearEqualityConstraint.holds DecisionVariableView.value
  have h : (fun j : Fin n => (gather sol [⟨s, n⟩]).getD j.val 0) =
      fun i : Fin n => sol (s + i.val) := by
    funext j
    exact gather_one_getD sol s n j.val j.isLt
  simp only [h]

/-- The constraint with the augmented matrix, on the two blocks, holds exactly when
`H * vdot - J^T * f = b`. -/
theorem holds_augmented {nv nc : Nat} (H : Matrix (Fin nv) (Fin nv) K)
    (J : Matrix (Fin nc) (Fin nv) K) (b : Fin nv → K) (sol : Nat → K) :
    (⟨nv, nv + nc, (augmented H J).coeff, b, [⟨0, nv⟩, ⟨nv, nc⟩]⟩ :
        LinearEqualityConstraint K).holds sol ↔
      H.mulVec ((⟨0, nv⟩ : DecisionVariableView).value sol nv) -
        J.transpose.mulVec ((⟨nv, nc⟩ : DecisionVariableView).value sol nc) = b := by
  unfold LinearEqualityConstraint.holds DecisionVariableView.value
  have h : ((augmented H J).coeff).mulVec
        (fun j : Fin (nv + nc) => (gather sol [⟨0, nv⟩, ⟨nv, nc⟩]).getD j.val 0) =
      H.mulVec (fun i : Fin nv => sol (0 + i.val)) -
        J.transpose.mulVec (fun i : Fin nc => sol (nv + i.val)) := by
    funext i
    simp only [Matrix.mulVec, Matrix.dotProduct, Pi.sub_apply]
    refine (Fin.sum_univ_add (fun x : Fin (nv + nc) => (augmented H J).coeff i x *
      (gather sol [⟨0, nv⟩, ⟨nv, nc⟩]).getD x.val 0)).trans ?_
    simp only [augmented_left, augmented_right, Fin.coe_castAdd, Fin.coe_natAdd,
      Matrix.transpose_apply]
    have h1 : ∀ j : Fin nv, (gather sol [⟨0, nv⟩, ⟨nv, nc⟩]).getD j.val 0 = sol (0 + j.val) :=
      fun j => gather_two_getD_left sol 0 nv nv nc j.val j.isLt
    have h2 : ∀ j : Fin nc, (gather sol [⟨0, nv⟩, ⟨nv, nc⟩]).getD (nv + j.val) 0
        = sol (nv + j.val) :=
      fun j => gather_two_getD_right sol 0 nv nv nc j.val j.isLt
    simp only [h1, h2, neg_mul, Finset.sum_neg_distrib]
    ring
  show ((augmented H J).coeff).mulVec
        (fun j : Fin (nv + nc) => (gather sol [⟨0, nv⟩, ⟨nv, nc⟩]).getD j.val 0) = b ↔ _
  rw [h]

/-- The right-hand side of the stabilised constraint, with `alpha = 5`. -/
theorem position_constraint_rhs_eq {nc nv : Nat} (J : Matrix (Fin nc) (Fin nv) K)
    (Jdotv phi : Fin nc → K) (v : Fin nv → K) :
    position_constraint_rhs J Jdotv phi v =
      -(Jdotv + (2 * 5 : K) • J.mulVec v + (5 * 5 : K) • phi) := by
  simp only [position_constraint_rhs, Matrix.smul_mulVec_assoc]
  norm_num

/-- C8: when the tree has position constraints, `dynamics` adds the constraint
`J * vdot = -(Jdotv + 2*alpha*J*v + alpha^2*phi)` with `alpha = 5`; if `phi = 0` and
`J * v = 0`, every solution that satisfies this constraint (so every solution that
satisfies the whole problem) has `Jdotv + J * vdot = 0`. -/
theorem position_constraint_stabilization (tree : RigidBodyTree K Cache) (kinsol : Cache)
    (v : Fin tree.num_velocities → K) (C : Fin tree.num_velocities → K) (sol : Nat → K)
    (hnc : tree.getNumPositionConstraints ≠ 0)
    (hphi : tree.positionConstraints kinsol = 0)
    (hJv : (tree.positionConstraintsJacobian kinsol).mulVec v = 0) :
    (⟨tree.getNumPositionConstraints, tree.num_velocities,
        tree.positionConstraintsJacobian kinsol,
        -(tree.positionConstraintsJacDotTimesV kinsol +
          (2 * 5 : K) • (tree.positionConstraintsJacobian kinsol).mulVec v +
          (5 * 5 : K) • tree.positionConstraints kinsol),
        [(dynamics_prog tree kinsol v C).2]⟩ : LinearEqualityConstraint K) ∈
      (dynamics_prog tree kinsol v C).1.constraints ∧
    ((⟨tree.getNumPositionConstraints, tree.num_velocities,
        tree.positionConstraintsJacobian kinsol,
        -(tree.positionConstraintsJacDotTimesV kinsol +
          (2 * 5 : K) • (tree.positionConstraintsJacobian kinsol).mulVec v +
          (5 * 5 : K) • tree.positionConstraints kinsol),
        [(dynamics_prog tree kinsol v C).2]⟩ : LinearEqualityConstraint K).holds sol →
      tree.positionConstraintsJacDotTimesV kinsol +
        (tree.positionConstraintsJacobian kinsol).mulVec
          ((dynamics_prog tree kinsol v C).2.value sol tree.num_velocities) = 0) ∧
    ((dynamics_prog tree kinsol v C).1.Satisfies sol →
      tree.positionConstraintsJacDotTimesV kinsol +
        (tree.positionConstraintsJacobian kinsol).mulVec
          ((dynamics_prog tree kinsol v C).2.value sol tree.num_velocities) = 0) := by
  have hmem : (⟨tree.getNumPositionConstraints, tree.num_velocities,
        tree.positionConstraintsJacobian kinsol,
        -(tree.positionConstraintsJacDotTimesV kinsol +
          (2 * 5 : K) • (tree.positionConstraintsJacobian kinsol).mulVec v +
          (5 * 5 : K) • tree.positionConstraints kinsol),
        [(dynamics_prog tree kinsol v C).2]⟩ : LinearEqualityConstraint K) ∈
      (dynamics_prog tree kinsol v C).1.constraints := by
    rw [dynamics_prog_of_pos tree kinsol v C hnc, position_constraint_rhs_eq]
    simp
  have hzero : (⟨tree.getNumPositionConstraints, tree.num_velocities,
        tree.positionConstraintsJacobian kinsol,
        -(tree.positionConstraintsJacDotTimesV kinsol +
          (2 * 5 : K) • (tree.positionConstraintsJacobian kinsol).mulVec v +
          (5 * 5 : K) • tree.positionConstraints kinsol),
        [(dynamics_prog tree kinsol v C).2]⟩ : LinearEqualityConstraint K).holds sol →
      tree.positionConstraintsJacDotTimesV kinsol +
        (tree.positionConstraintsJacobian kinsol).mulVec
          ((dynamics_prog tree kinsol v C).2.value sol tree.num_velocities) = 0 := by
    rw [dynamics_prog_of_pos tree kinsol v C hnc]
    intro h
    rw [holds_block] at h
    rw [h, hphi, hJv]
    simp
  exact ⟨hmem, hzero, fun hs => hzero (hs _ hmem)⟩


theorem position_constraint_stabilization_witness :
    ((exampleTree 1 1).getNumPositionConstraints ≠ 0 ∧
      (exampleTree 1 1).positionConstraints () = 0 ∧
      ((exampleTree 1 1).positionConstraintsJacobian ()).mulVec (fun _ => (0 : ℚ)) = 0) ∧
    (exampleTree 1 1).positionConstraintsJacDotTimesV () +
      ((exampleTree 1 1).positionConstraintsJacobian ()).mulVec
        ((dynamics_prog (exampleTree 1 1) () (fun _ => 0) (fun _ => 3)).2.value (fun _ => 0)
          (exampleTree 1 1).num_velocities) = 0 :=
  ⟨⟨by decide, rfl, Matrix.mulVec_zero _⟩,
    (position_constraint_stabilization (exampleTree 1 1) () (fun _ => 0) (fun _ => 3)
      (fun _ => 0) (by decide) rfl (Matrix.mulVec_zero _)).2.1 (by
        rw [dynamics_prog_of_pos _ _ _ _ (by decide), holds_block]
        funext i
        simp [exampleTree, DecisionVariableView.value, Matrix.mulVec, Matrix.dotProduct])⟩

theorem dynamics_f_ext_isSome (transformSpatialForce : Tf → SpatialForce K → SpatialForce K)
    (t : K) (u : List K) (kinsol : Cache) (props : List (RigidBodyForceElement K Cache Tf)) :
    ∀ (u_index : Nat) (f_ext : ExternalForces K), u_index + props.length ≤ u.length →
      ∃ f, dynamics_f_ext transformSpatialForce t u kinsol props u_index f_ext = some f := by
  induction props with
  | nil => intro u_index f_ext _; exact ⟨f_ext, rfl⟩
  | cons prop rest ih =>
    intro u_index f_ext h
    have hlt : u_index < u.length := by
      simp only [List.length_cons] at h; omega
    have hmid : middleRows1 u u_index = some fun _ => u.get ⟨u_index, hlt⟩ := by
      simp only [middleRows1, List.get?_eq_get hlt, Option.map_some']
    simp only [dynamics_f_ext, hmid]
    apply ih
    simp only [List.length_cons] at h
    omega

theorem contact_loop_eq_sub_sum (sqrt : K → K) (tree : RigidBodyTree K Cache)
    (kinsol : Cache) (v : Fin tree.num_velocities → K) (C : Fin tree.num_velocities → K) :
    dynamics_contact sqrt tree kinsol v C =
      C - ∑ i in Finset.univ.filter (fun i => (tree.collisionDetect kinsol).phi i < 0),
        contact_generalized_force sqrt tree kinsol v (tree.collisionDetect kinsol) i := by
  rw [dynamics_contact, foldl_contact_step, Finset.sum_filter, Fin.sum_univ_def]

theorem dynamics_contact_of_no_penetration (sqrt : K → K) (tree : RigidBodyTree K Cache)
    (kinsol : Cache) (v : Fin tree.num_velocities → K) (C : Fin tree.num_velocities → K)
    (hphi : ∀ i, ¬ (tree.collisionDetect kinsol).phi i < 0) :
    dynamics_contact sqrt tree kinsol v C = C := by
  rw [contact_loop_eq_sub_sum, Finset.filter_false_of_mem (fun i _ => hphi i)]
  simp

theorem dynamics_C_of_no_actuators (tree : RigidBodyTree K Cache) (kinsol : Cache)
    (f_ext : ExternalForces K) (u : List K) (hact : tree.num_actuators = 0) :
    dynamics_C tree kinsol f_ext u = some (tree.dynamicsBiasTerm kinsol f_ext) := by
  have h : ¬ 0 < tree.num_actuators := by omega
  simp only [dynamics_C, if_neg h]

/-- C9: with no actuator, no interpenetrating contact and no position constraint (and
one input entry for each force element), `dynamics` gives the solver one block `vdot`
of size `nv` and the one constraint `H * vdot = -C`, where `H = massMatrix(kinsol)` and
`C = dynamicsBiasTerm(kinsol, f_ext)` as returned; a solution that satisfies the
problem has `H * vdot = -C`; the result is `[P * v; vdot]`, and its first rows are those
of `v` when `P` is the identity. -/
theorem dynamics_unconstrained (sqrt : K → K)
    (transformSpatialForce : Tf → SpatialForce K → SpatialForce K)
    (solve : OptimizationProblem K → Nat → K) (sys : RigidBodySystem K Cache Tf)
    (t : K) (x : Fin (sys.tree.num_positions + sys.tree.num_velocities) → K) (u : List K)
    (hact : sys.tree.num_actuators = 0)
    (hphi : ∀ i, ¬ (sys.tree.collisionDetect (dynamics_kinsol sys x)).phi i < 0)
    (hnc : sys.tree.getNumPositionConstraints = 0)
    (hu : sys.props.length ≤ u.length) :
    ∃ (f_ext : ExternalForces K) (vdot : Fin sys.tree.num_velocities → K),
      dynamics_f_ext transformSpatialForce t u (dynamics_kinsol sys x) sys.props 0
        (fun _ => none) = some f_ext ∧
      dynamics_C sys.tree (dynamics_kinsol sys x) f_ext u =
        some (sys.tree.dynamicsBiasTerm (dynamics_kinsol sys x) f_ext) ∧
      dynamics_contact sqrt sys.tree (dynamics_kinsol sys x) (x_v x)
          (sys.tree.dynamicsBiasTerm (dynamics_kinsol sys x) f_ext) =
        sys.tree.dynamicsBiasTerm (dynamics_kinsol sys x) f_ext ∧
      dynamics_prog sys.tree (dynamics_kinsol sys x) (x_v x)
          (sys.tree.dynamicsBiasTerm (dynamics_kinsol sys x) f_ext) =
        (⟨[(sys.tree.num_velocities, "vdot")],
          [⟨sys.tree.num_velocities, sys.tree.num_velocities,
            sys.tree.massMatrix (dynamics_kinsol sys x),
            -sys.tree.dynamicsBiasTerm (dynamics_kinsol sys x) f_ext,
            [⟨0, sys.tree.num_velocities⟩]⟩]⟩, ⟨0, sys.tree.num_velocities⟩) ∧
      vdot = (⟨0, sys.tree.num_velocities⟩ : DecisionVariableView).value
        (solve (dynamics_prog sys.tree (dynamics_kinsol sys x) (x_v x)
          (sys.tree.dynamicsBiasTerm (dynamics_kinsol sys x) f_ext)).1) sys.tree.num_velocities ∧
      dynamics sqrt transformSpatialForce solve sys t x u =
        some (Fin.append
          ((sys.tree.transformPositionDotMappingToVelocityMapping (dynamics_kinsol sys x)
            1).mulVec (x_v x)) vdot) ∧
      ((dynamics_prog sys.tree (dynamics_kinsol sys x) (x_v x)
            (sys.tree.dynamicsBiasTerm (dynamics_kinsol sys x) f_ext)).1.Satisfies
          (solve (dynamics_prog sys.tree (dynamics_kinsol sys x) (x_v x)
            (sys.tree.dynamicsBiasTerm (dynamics_kinsol sys x) f_ext)).1) →
        (sys.tree.massMatrix (dynamics_kinsol sys x)).mulVec vdot =
          -sys.tree.dynamicsBiasTerm (dynamics_kinsol sys x) f_ext) ∧
      ((∀ i j, sys.tree.transformPositionDotMappingToVelocityMapping (dynamics_kinsol sys x)
            1 i j = if i.val = j.val then 1 else 0) →
        ∀ (i : Fin sys.tree.num_positions) (hi : i.val < sys.tree.num_velocities),
          Fin.append
            ((sys.tree.transformPositionDotMappingToVelocityMapping (dynamics_kinsol sys x)
              1).mulVec (x_v x)) vdot (Fin.castAdd sys.tree.num_velocities i) =
            x_v x ⟨i.val, hi⟩) := by
  obtain ⟨f_ext, hf⟩ := dynamics_f_ext_isSome transformSpatialForce t u (dynamics_kinsol sys x)
    sys.props 0 (fun _ => none) (by omega)
  have hC := dynamics_C_of_no_actuators sys.tree (dynamics_kinsol sys x) f_ext u hact
  have hcontact := dynamics_contact_of_no_penetration sqrt sys.tree (dynamics_kinsol sys x)
    (x_v x) (sys.tree.dynamicsBiasTerm (dynamics_kinsol sys x) f_ext) hphi
  have hprog := dynamics_prog_of_zero sys.tree (dynamics_kinsol sys x) (x_v x)
    (sys.tree.dynamicsBiasTerm (dynamics_kinsol sys x) f_ext) hnc
  refine ⟨f_ext, _, hf, hC, hcontact, hprog, rfl, ?_, ?_, ?_⟩
  · have hf' : dynamics_f_ext transformSpatialForce t u
        (sys.tree.doKinematics (x_q x) (x_v x)) sys.props 0 (fun _ => none) = some f_ext := hf
    have hC' : dynamics_C sys.tree (sys.tree.doKinematics (x_q x) (x_v x)) f_ext u =
        some (sys.tree.dynamicsBiasTerm (sys.tree.doKinematics (x_q x) (x_v x)) f_ext) := hC
    have hcontact' : dynamics_contact sqrt sys.tree (sys.tree.doKinematics (x_q x) (x_v x))
        (x_v x) (sys.tree.dynamicsBiasTerm (sys.tree.doKinematics (x_q x) (x_v x)) f_ext) =
        sys.tree.dynamicsBiasTerm (sys.tree.doKinematics (x_q x) (x_v x)) f_ext := hcontact
    simp only [dynamics, hf', hC', hcontact']
    rfl
  · intro hs
    rw [hprog] at hs ⊢
    have h := hs _ (List.mem_singleton.mpr rfl)
    exact (holds_block _ _ _ _).mp h
  · intro hP i hi
    rw [Fin.append_left]
    simp only [Matrix.mulVec, Matrix.dotProduct, hP]
    rw [Finset.sum_eq_single (⟨i.val, hi⟩ : Fin sys.tree.num_velocities)]
    · simp
    · intro j _ hj
      have : ¬ i.val = j.val := fun h => hj (Fin.ext h.symm)
      simp [this]
    · intro h; exact absurd (Finset.mem_univ _) h


theorem dynamics_unconstrained_witness :
    (exampleSystem.tree.num_actuators = 0 ∧
      (∀ i, ¬ (exampleSystem.tree.collisionDetect
        (dynamics_kinsol exampleSystem ![0, 4])).phi i < 0) ∧
      exampleSystem.tree.getNumPositionConstraints = 0 ∧
      exampleSystem.props.length ≤ [(7 : ℚ)].length) ∧
    ∃ y, dynamics Rat.sqrt (fun _ f => f) (fun _ _ => -3 / 2) exampleSystem 0 ![0, 4] [7]
        = some y ∧
      (exampleSystem.tree.massMatrix ()).mulVec (x_v y) = fun _ => -3 := by
  have hphi : ∀ i, ¬ (exampleSystem.tree.collisionDetect
      (dynamics_kinsol exampleSystem ![0, 4])).phi i < 0 := by
    intro i
    simp [exampleSystem, exampleTree]
  refine ⟨⟨rfl, hphi, rfl, by decide⟩, ?_⟩
  obtain ⟨f_ext, vdot, _, _, _, hprog, hvdot, hdyn, hsat, _⟩ :=
    dynamics_unconstrained Rat.sqrt (fun (_ : Unit) (f : SpatialForce ℚ) => f)
      (fun _ _ => (-3 / 2 : ℚ)) exampleSystem 0 ![0, 4] [7] rfl hphi rfl (by decide)
  refine ⟨_, hdyn, ?_⟩
  have hv : x_v (Fin.append
      ((exampleSystem.tree.transformPositionDotMappingToVelocityMapping
        (dynamics_kinsol exampleSystem ![0, 4]) 1).mulVec (x_v ![0, 4])) vdot) = vdot := by
    funext i
    simp [x_v, Fin.append_right]
  rw [hv]
  have h := hsat (by
    rw [hprog]
    intro c hc
    rw [List.mem_singleton.mp hc, holds_block]
    funext i
    simp only [exampleSystem, exampleTree, DecisionVariableView.value, Matrix.mulVec,
      Matrix.dotProduct, Finset.univ_unique, Finset.sum_singleton, Pi.neg_apply]
    norm_num)
  rw [h]
  rfl

/-- C10: with `nc > 0` position constraints, `dynamics` declares the two blocks `vdot`
(size `nv`) and `position constraint force` (size `nc`); the matrix of the last
constraint it adds has `nv + nc` columns, the left `nv` are `H`, the right `nc` are
`-J^T`; that constraint, on all the variables with right-hand side `-C`, holds exactly
when `H * vdot - J^T * f = -C`; and the number of columns is the number of decision
variables. -/
theorem dynamics_prog_constrained (tree : RigidBodyTree K Cache) (kinsol : Cache)
    (v : Fin tree.num_velocities → K) (C : Fin tree.num_velocities → K) (sol : Nat → K)
    (hnc : 0 < tree.getNumPositionConstraints) :
    (dynamics_prog tree kinsol v C).1.decision_variables =
      [(tree.num_velocities, "vdot"),
        (tree.getNumPositionConstraints, "position constraint force")] ∧
    (dynamics_prog tree kinsol v C).1.constraints.getLast? =
      some ⟨tree.num_velocities, tree.num_velocities + tree.getNumPositionConstraints,
        (augmented (tree.massMatrix kinsol) (tree.positionConstraintsJacobian kinsol)).coeff,
        -C,
        [⟨0, tree.num_velocities⟩, ⟨tree.num_velocities, tree.getNumPositionConstraints⟩]⟩ ∧
    (augmented (tree.massMatrix kinsol) (tree.positionConstraintsJacobian kinsol)).cols =
      tree.num_velocities + tree.getNumPositionConstraints ∧
    (∀ i j, (augmented (tree.massMatrix kinsol) (tree.positionConstraintsJacobian kinsol)).coeff
      i (Fin.castAdd tree.getNumPositionConstraints j) = tree.massMatrix kinsol i j) ∧
    (∀ i j, (augmented (tree.massMatrix kinsol) (tree.positionConstraintsJacobian kinsol)).coeff
      i (Fin.natAdd tree.num_velocities j) =
        (-(tree.positionConstraintsJacobian kinsol).transpose) i j) ∧
    ((⟨tree.num_velocities, tree.num_velocities + tree.getNumPositionConstraints,
        (augmented (tree.massMatrix kinsol) (tree.positionConstraintsJacobian kinsol)).coeff,
        -C,
        [⟨0, tree.num_velocities⟩, ⟨tree.num_velocities, tree.getNumPositionConstraints⟩]⟩ :
          LinearEqualityConstraint K).holds sol ↔
      (tree.massMatrix kinsol).mulVec
          ((⟨0, tree.num_velocities⟩ : DecisionVariableView).value sol tree.num_velocities) -
        (tree.positionConstraintsJacobian kinsol).transpose.mulVec
          ((⟨tree.num_velocities, tree.getNumPositionConstraints⟩ : DecisionVariableView).value
            sol tree.getNumPositionConstraints) = -C) ∧
    (augmented (tree.massMatrix kinsol) (tree.positionConstraintsJacobian kinsol)).cols =
      (dynamics_prog tree kinsol v C).1.num_vars := by
  have hne : tree.getNumPositionConstraints ≠ 0 := Nat.pos_iff_ne_zero.mp hnc
  rw [dynamics_prog_of_pos tree kinsol v C hne]
  refine ⟨rfl, by simp, rfl, augmented_left _ _, ?_, holds_augmented _ _ _ _, ?_⟩
  · intro i j
    rw [augmented_right]
    rfl
  · simp [OptimizationProblem.num_vars, augmented_cols]

theorem dynamics_prog_constrained_witness :
    0 < (exampleTree 1 1).getNumPositionConstraints ∧
      (dynamics_prog (exampleTree 1 1) () (fun _ => 0) (fun _ => 3)).1.decision_variables =
        [(1, "vdot"), (1, "position constraint force")] ∧
      (augmented ((exampleTree 1 1).massMatrix ())
        ((exampleTree 1 1).positionConstraintsJacobian ())).cols = 2 :=
  ⟨by decide,
    (dynamics_prog_constrained (exampleTree 1 1) () (fun _ => 0) (fun _ => 3) (fun _ => 0)
      (by decide)).1,
    (dynamics_prog_constrained (exampleTree 1 1) () (fun _ => 0) (fun _ => 3) (fun _ => 0)
      (by decide)).2.2.1⟩

end assembly
/-! ## Filter-group mutation and adjacency: theorems -/

namespace RigidBody

/-- C16: for every body and every mask `m`, applying `addToCollisionFilterGroup(m)` twice
gives the same body as applying it once; the group mask is then `old group | m`, and
the ignore mask is unchanged after one and after two applications. -/
theorem addToCollisionFilterGroup_twice (b : RigidBody) (m : DrakeCollision.bitmask) :
    addToCollisionFilterGroup (addToCollisionFilterGroup b m) m =
      addToCollisionFilterGroup b m ∧
    (addToCollisionFilterGroup (addToCollisionFilterGroup b m) m).collision_filter_group =
      (addToCollisionFilterGroup b m).collision_filter_group ∧
    (addToCollisionFilterGroup b m).collision_filter_group = b.collision_filter_group ||| m ∧
    (addToCollisionFilterGroup b m).collision_filter_ignores = b.collision_filter_ignores ∧
    (addToCollisionFilterGroup (addToCollisionFilterGroup b m) m).collision_filter_ignores =
      b.collision_filter_ignores := by
  have h : (b.collision_filter_group ||| m) ||| m = b.collision_filter_group ||| m := by
    rw [Nat.lor_assoc, Nat.or_self]
  refine ⟨?_, h, rfl, rfl, rfl⟩
  simp only [addToCollisionFilterGroup, h]

/-- C17: `adjacentTo(other)` is true exactly when `other` is the parent of `this` and the
joint of `this` is not floating, or `this` is the parent of `other` and the joint of
`other` is not floating.  When the joint of the child `this` is floating, its parent link
does not make the two adjacent: `adjacentTo` is then decided by the other direction
alone. -/
theorem adjacentTo_iff (mem : Store) (this other : Addr) :
    (adjacentTo mem this other = true ↔
      (has_as_parent mem this other = true ∧ jointIsFloating mem this = false) ∨
      (has_as_parent mem other this = true ∧ jointIsFloating mem other = false)) ∧
    (has_as_parent mem this other = true → jointIsFloating mem this = true →
      adjacentTo mem this other =
        (has_as_parent mem other this && !jointIsFloating mem other) ∧
      (has_as_parent mem other this = false → adjacentTo mem this other = false ∧
        adjacentTo mem other this = false)) := by
  constructor
  · simp [adjacentTo]
  · intro _ hfl
    have h1 : adjacentTo mem this other =
        (has_as_parent mem other this && !jointIsFloating mem other) := by
      simp [adjacentTo, hfl]
    refine ⟨h1, fun hno => ?_⟩
    have h2 : adjacentTo mem this other = false := by rw [h1, hno]; rfl
    exact ⟨h2, by rw [adjacentTo_comm]; exact h2⟩

theorem adjacentTo_iff_witness :
    (has_as_parent (parentChildStore true) 1 0 = true ∧
      jointIsFloating (parentChildStore true) 1 = true ∧
      has_as_parent (parentChildStore true) 0 1 = false) ∧
    adjacentTo (parentChildStore true) 1 0 = false ∧
    adjacentTo (parentChildStore true) 0 1 = false :=
  ⟨⟨by decide, by decide, by decide⟩,
    ((adjacentTo_iff (parentChildStore true) 1 0).2 (by decide) (by decide)).2 (by decide)⟩

end RigidBody

/-! ## The normal component of the contact force: theorems -/

section contact_normal

variable {K : Type} [LinearOrderedField K]

theorem dotProduct_tangential_velocity (rv normal : Vector3 K)
    (hunit : Matrix.dotProduct normal normal = 1) :
    Matrix.dotProduct (tangential_velocity rv (phidot rv normal) normal) normal = 0 := by
  simp only [tangential_velocity, phidot, Matrix.sub_dotProduct, Matrix.smul_dotProduct, hunit,
    smul_eq_mul, mul_one, sub_self]

/-- C19: for a contact whose normal has unit length (`normal . normal = 1`), whatever
`v` is, the tangential velocity `relative_velocity - phidot * normal` has dot product 0
with the normal, and the normal component of `fA` is the spring-damper value
`-500 * phi - 50 * phidot`. -/
theorem contact_fA_normal_component {nv : Nat} (sqrt : K → K) (phi : K) (normal : Vector3 K)
    (JA JB : Matrix (Fin 3) (Fin nv) K) (v : Fin nv → K)
    (hunit : Matrix.dotProduct normal normal = 1) :
    Matrix.dotProduct (contact_tangential_velocity normal JA JB v) normal = 0 ∧
    Matrix.dotProduct (contact_fA sqrt phi normal JA JB v) normal =
      contact_fA_normal phi normal JA JB v ∧
    Matrix.dotProduct (contact_fA sqrt phi normal JA JB v) normal =
      -500 * phi - 50 * phidot (relative_velocity JA JB v) normal := by
  have htv : Matrix.dotProduct (contact_tangential_velocity normal JA JB v) normal = 0 :=
    dotProduct_tangential_velocity _ _ hunit
  have hfr : Matrix.dotProduct (contact_friction sqrt phi normal JA JB v) normal = 0 := by
    have h : contact_friction sqrt phi normal JA JB v =
        (-(1 * contact_fA_normal phi normal JA JB v /
          (norm sqrt (contact_tangential_velocity normal JA JB v) + 1e-12))) •
          contact_tangential_velocity normal JA JB v := by
      funext j
      rw [contact_friction_apply]
      simp only [Pi.smul_apply, smul_eq_mul]
      ring
    rw [h, Matrix.smul_dotProduct, htv, smul_zero]
  have hn : Matrix.dotProduct (contact_fA sqrt phi normal JA JB v) normal =
      contact_fA_normal phi normal JA JB v := by
    rw [contact_fA_eq, Matrix.add_dotProduct, Matrix.smul_dotProduct, hunit, hfr]
    simp
  refine ⟨htv, hn, ?_⟩
  rw [hn]
  simp only [contact_fA_normal, fA_normal]
  norm_num

theorem contact_fA_normal_component_witness :
    Matrix.dotProduct (![0, 0, 1] : Vector3 ℚ) ![0, 0, 1] = 1 ∧
    Matrix.dotProduct
        (contact_fA Rat.sqrt (-0.01 : ℚ) ![0, 0, 1] (1 : Matrix (Fin 3) (Fin 3) ℚ) 0 ![1, 0, 1])
        ![0, 0, 1] =
      contact_fA_normal (-0.01 : ℚ) ![0, 0, 1] (1 : Matrix (Fin 3) (Fin 3) ℚ) 0 ![1, 0, 1] :=
  ⟨by simp [Matrix.dotProduct, Fin.sum_univ_three],
    (contact_fA_normal_component Rat.sqrt (-0.01 : ℚ) ![0, 0, 1]
      (1 : Matrix (Fin 3) (Fin 3) ℚ) 0 ![1, 0, 1]
      (by simp [Matrix.dotProduct, Fin.sum_univ_three])).2.1⟩

end contact_normal

/-! ## The inputs of the force elements: theorems -/

section force_elements_thms

variable {K : Type} [LinearOrderedField K] {Cache Tf : Type}

theorem middleRows1_of_lt (u : List K) (i : Nat) (h : i < u.length) :
    middleRows1 u i = some fun _ => u.getD i 0 := by
  simp only [middleRows1, List.get?_eq_get h, Option.map_some', List.getD_eq_getElem?_getD,
    List.getElem?_eq_getElem h, Option.getD_some, List.get_eq_getElem]

theorem f_ext_add_apply (f_ext : ExternalForces K) (body : Addr) (f : SpatialForce K)
    (a : Addr) :
    f_ext_add f_ext body f a = if a = body then some ((f_ext body).getD 0 + f) else f_ext a := by
  unfold f_ext_add
  cases h : f_ext body with
  | none => by_cases ha : a = body <;> simp [ha]
  | some old => by_cases ha : a = body <;> simp [ha]

/-- The loop over the force elements, started at `u_index` with the map `f_ext`: the
entry of a body with no element in `props` is left as it is, every other entry becomes
the old entry (or zero) plus the forces of the elements attached to the body. -/
theorem dynamics_f_ext_eq (transformSpatialForce : Tf → SpatialForce K → SpatialForce K)
    (t : K) (u : List K) (kinsol : Cache) (props : List (RigidBodyForceElement K Cache Tf)) :
    ∀ (u_index : Nat) (f_ext : ExternalForces K), u_index + props.length ≤ u.length →
      dynamics_f_ext transformSpatialForce t u kinsol props u_index f_ext =
        some fun body =>
          if (attached_forces transformSpatialForce t u kinsol props u_index body).isEmpty
          then f_ext body
          else some ((f_ext body).getD 0 +
            (attached_forces transformSpatialForce t u kinsol props u_index body).sum) := by
  induction props with
  | nil =>
    intro u_index f_ext _
    simp [dynamics_f_ext, attached_forces]
  | cons prop rest ih =>
    intro u_index f_ext h
    simp only [List.length_cons] at h
    have hlt : u_index < u.length := by omega
    simp only [dynamics_f_ext, middleRows1_of_lt u u_index hlt]
    rw [ih (u_index + 1) _ (by omega)]
    congr 1
    funext body
    simp only [attached_forces, f_ext_add_apply, f_ext_i]
    by_cases hb : prop.getFrame.body = body
    · have hb' : body = prop.getFrame.body := hb.symm
      simp only [hb, if_true, List.isEmpty_cons, List.sum_cons, Option.getD_some]
      by_cases he : (attached_forces transformSpatialForce t u kinsol rest (u_index + 1)
          body).isEmpty = true
      · have hnil : attached_forces transformSpatialForce t u kinsol rest (u_index + 1) body
            = [] := List.isEmpty_iff.mp he
        simp [hnil]
      · simp only [he, if_false, Bool.false_eq_true]
        congr 1
        abel
    · have hb' : ¬ body = prop.getFrame.body := fun h => hb h.symm
      simp only [hb, hb', if_false]

theorem attached_forces_eq (transformSpatialForce : Tf → SpatialForce K → SpatialForce K)
    (t : K) (u : List K) (kinsol : Cache) (props : List (RigidBodyForceElement K Cache Tf))
    (body : Addr) :
    ∀ u_index : Nat, attached_forces transformSpatialForce t u kinsol props u_index body =
      ((props.enumFrom u_index).filter fun p => decide (p.2.getFrame.body = body)).map
        fun p => f_ext_i transformSpatialForce t kinsol p.2 (u.getD p.1 0) := by
  induction props with
  | nil => intro _; rfl
  | cons prop rest ih =>
    intro u_index
    simp only [attached_forces, List.enumFrom_cons, List.filter_cons]
    by_cases hb : prop.getFrame.body = body
    · simp [hb, ih]
    · simp [hb, ih]

theorem attached_forces_eq_nil_iff
    (transformSpatialForce : Tf → SpatialForce K → SpatialForce K)
    (t : K) (u : List K) (kinsol : Cache) (props : List (RigidBodyForceElement K Cache Tf))
    (body : Addr) :
    ∀ u_index : Nat, attached_forces transformSpatialForce t u kinsol props u_index body = [] ↔
      ∀ prop ∈ props, prop.getFrame.body ≠ body := by
  induction props with
  | nil => intro _; simp [attached_forces]
  | cons prop rest ih =>
    intro u_index
    simp only [attached_forces, List.mem_cons, forall_eq_or_imp]
    by_cases hb : prop.getFrame.body = body
    · simp [hb]
    · simp [hb, ih]

/-- C11: when `u` has at least one entry for each force element, the loop over the force
elements ends with a map that has, for each body with at least one element attached,
the sum of `transformSpatialForce(frame_i.transform_to_body, output_i(t, u[i], kinsol))`
over the elements `i` attached to it, in declaration order, element `i` reading the one
entry `u[i]`; a body with no element has no entry. -/
theorem dynamics_f_ext_eq_sum (transformSpatialForce : Tf → SpatialForce K → SpatialForce K)
    (t : K) (u : List K) (kinsol : Cache) (props : List (RigidBodyForceElement K Cache Tf))
    (hu : props.length ≤ u.length) :
    dynamics_f_ext transformSpatialForce t u kinsol props 0 (fun _ => none) =
      some (fun body =>
        if (attached_forces transformSpatialForce t u kinsol props 0 body).isEmpty then none
        else some (attached_forces transformSpatialForce t u kinsol props 0 body).sum) ∧
    (∀ body, attached_forces transformSpatialForce t u kinsol props 0 body =
      ((props.enum).filter fun p => decide (p.2.getFrame.body = body)).map
        fun p => transformSpatialForce p.2.getFrame.transform_to_body
          (p.2.output t (fun _ => u.getD p.1 0) kinsol)) ∧
    (∀ body, (attached_forces transformSpatialForce t u kinsol props 0 body).isEmpty = true ↔
      ∀ prop ∈ props, prop.getFrame.body ≠ body) := by
  refine ⟨?_, ?_, ?_⟩
  · rw [dynamics_f_ext_eq transformSpatialForce t u kinsol props 0 _ (by omega)]
    congr 1
    funext body
    by_cases he : (attached_forces transformSpatialForce t u kinsol props 0 body).isEmpty = true
    · simp only [he, if_true]
    · simp only [he, if_false, Bool.false_eq_true, Option.getD_none, zero_add]
  · intro body
    exact attached_forces_eq transformSpatialForce t u kinsol props body 0
  · intro body
    rw [List.isEmpty_iff]
    exact attached_forces_eq_nil_iff transformSpatialForce t u kinsol props body 0

end force_elements_thms

section input_slicing

variable {K : Type} [LinearOrderedField K] {Cache Tf : Type}

/-- The loop over the force elements pairs the elements, in order, with the rows of `u`
from `u_index` on. -/
theorem dynamics_f_ext_eq_foldl_zip
    (transformSpatialForce : Tf → SpatialForce K → SpatialForce K)
    (t : K) (u : List K) (kinsol : Cache) (props : List (RigidBodyForceElement K Cache Tf)) :
    ∀ (u_index : Nat) (f_ext : ExternalForces K), u_index + props.length ≤ u.length →
      dynamics_f_ext transformSpatialForce t u kinsol props u_index f_ext =
        some ((props.zip (u.drop u_index)).foldl
          (fun f p => f_ext_add f p.1.getFrame.body
            (f_ext_i transformSpatialForce t kinsol p.1 p.2)) f_ext) := by
  induction props with
  | nil => intro u_index f_ext _; simp [dynamics_f_ext]
  | cons prop rest ih =>
    intro u_index f_ext h
    simp only [List.length_cons] at h
    have hlt : u_index < u.length := by omega
    simp only [dynamics_f_ext, middleRows1_of_lt u u_index hlt]
    rw [ih (u_index + 1) _ (by omega), List.drop_eq_getElem_cons hlt]
    simp only [List.zip_cons_cons, List.foldl_cons, f_ext_i, List.getD_eq_getElem?_getD,
      List.getElem?_eq_getElem hlt, Option.getD_some]

theorem topRows_of_le (u : List K) (n : Nat) (h : n ≤ u.length) :
    topRows u n = some fun i => u.getD i.val 0 := by
  simp only [topRows, dif_pos h]
  congr 1
  funext i
  have hi : i.val < u.length := lt_of_lt_of_le i.isLt h
  simp only [List.get_eq_getElem, List.getD_eq_getElem?_getD, List.getElem?_eq_getElem hi,
    Option.getD_some]

/-- C20: with at least one actuator and at least one force element (and `u` long enough
for both), the force-element loop gives element `i` the entry `u[i]`, the actuator term
subtracted from `C` is `B * u[0..num_actuators)`, and so every index `j` below both
`num_actuators` and the number of force elements, `j = 0` among them, is read twice:
as the input of actuator `j` and as the input of force element `j`. -/
theorem dynamics_inputs_shared (transformSpatialForce : Tf → SpatialForce K → SpatialForce K)
    (t : K) (u : List K) (kinsol : Cache) (sys : RigidBodySystem K Cache Tf)
    (hact : 0 < sys.tree.num_actuators) (hprops : 0 < sys.props.length)
    (hu1 : sys.tree.num_actuators ≤ u.length) (hu2 : sys.props.length ≤ u.length) :
    dynamics_f_ext transformSpatialForce t u kinsol sys.props 0 (fun _ => none) =
      some ((sys.props.zip u).foldl
        (fun f p => f_ext_add f p.1.getFrame.body
          (transformSpatialForce p.1.getFrame.transform_to_body
            (p.1.output t (fun _ => p.2) kinsol))) (fun _ => none)) ∧
    (∀ f_ext : ExternalForces K, dynamics_C sys.tree kinsol f_ext u =
      some (sys.tree.dynamicsBiasTerm kinsol f_ext -
        sys.tree.B.mulVec (fun i => u.getD i.val 0))) ∧
    (∀ (j : Nat) (h1 : j < sys.tree.num_actuators) (h2 : j < sys.props.length),
      ∃ a : K, u.get? j = some a ∧
        (fun i : Fin sys.tree.num_actuators => u.getD i.val 0) ⟨j, h1⟩ = a ∧
        (sys.props.zip u).get? j = some (sys.props.get ⟨j, h2⟩, a)) ∧
    (∃ (a : K) (prop : RigidBodyForceElement K Cache Tf) (rest : List K)
        (others : List (RigidBodyForceElement K Cache Tf)),
      u = a :: rest ∧ sys.props = prop :: others ∧
        (fun i : Fin sys.tree.num_actuators => u.getD i.val 0) ⟨0, hact⟩ = a ∧
        (sys.props.zip u).head? = some (prop, a)) := by
  refine ⟨?_, ?_, ?_, ?_⟩
  · have h := dynamics_f_ext_eq_foldl_zip transformSpatialForce t u kinsol sys.props 0
      (fun _ => none) (by omega)
    simpa only [List.drop_zero, f_ext_i] using h
  · intro f_ext
    simp only [dynamics_C, if_pos hact, topRows_of_le u _ hu1]
  · intro j h1 h2
    have hj : j < u.length := lt_of_lt_of_le h1 hu1
    refine ⟨u.get ⟨j, hj⟩, List.get?_eq_get hj, ?_, ?_⟩
    · simp only [List.get_eq_getElem, List.getD_eq_getElem?_getD, List.getElem?_eq_getElem hj,
        Option.getD_some]
    · have hz : j < (sys.props.zip u).length := by
        simp only [List.length_zip]; omega
      rw [List.get?_eq_get hz]
      simp
  · cases hu : u with
    | nil => rw [hu] at hu1; simp at hu1; omega
    | cons a rest =>
      cases hp : sys.props with
      | nil => rw [hp] at hprops; simp at hprops
      | cons prop others =>
        exact ⟨a, prop, rest, others, rfl, rfl, by simp, by simp⟩

theorem dynamics_inputs_shared_witness :
    (0 < (⟨actuatedTree, exampleProps⟩ : RigidBodySystem ℚ Unit Unit).tree.num_actuators ∧
      0 < (⟨actuatedTree, exampleProps⟩ : RigidBodySystem ℚ Unit Unit).props.length ∧
      (⟨actuatedTree, exampleProps⟩ : RigidBodySystem ℚ Unit Unit).tree.num_actuators ≤
        [(7 : ℚ), 5, 4].length ∧
      (⟨actuatedTree, exampleProps⟩ : RigidBodySystem ℚ Unit Unit).props.length ≤
        [(7 : ℚ), 5, 4].length) ∧
    dynamics_C actuatedTree () (fun _ => none) [7, 5, 4] =
      some (actuatedTree.dynamicsBiasTerm () (fun _ => none) -
        actuatedTree.B.mulVec (fun i => [(7 : ℚ), 5, 4].getD i.val 0)) :=
  ⟨⟨by decide, by decide, by decide, by decide⟩,
    (dynamics_inputs_shared (fun (_ : Unit) (f : SpatialForce ℚ) => f) 0 [7, 5, 4] ()
      (⟨actuatedTree, exampleProps⟩ : RigidBodySystem ℚ Unit Unit)
      (by decide) (by decide) (by decide) (by decide)).2.1 (fun _ => none)⟩

theorem dynamics_f_ext_eq_sum_witness :
    exampleProps.length ≤ [(7 : ℚ), 5, 4].length ∧
    dynamics_f_ext (fun (_ : Unit) (f : SpatialForce ℚ) => f) 0 [7, 5, 4] () exampleProps 0
        (fun _ => none) =
      some (fun body =>
        if (attached_forces (fun (_ : Unit) (f : SpatialForce ℚ) => f) 0 [7, 5, 4] ()
          exampleProps 0 body).isEmpty then none
        else some (attached_forces (fun (_ : Unit) (f : SpatialForce ℚ) => f) 0 [7, 5, 4] ()
          exampleProps 0 body).sum) :=
  ⟨by decide,
    (dynamics_f_ext_eq_sum (fun (_ : Unit) (f : SpatialForce ℚ) => f) 0 [7, 5, 4] ()
      exampleProps (by decide)).1⟩

end input_slicing

/-! ## Loading: theorems -/

section loading_thms

variable {K : Type} [LinearOrderedField K] {Tf T : Type}

theorem propellor_axis_eq_none_iff (env : LoadEnv K Tf T) (node : TiXmlElement) :
    propellor_axis env node = none ↔
      ∃ axis_node, node.FirstChildElement "axis" = some axis_node ∧
        norm env.sqrt (parseVectorAttribute env axis_node "xyz" ![1.0, 0.0, 0.0]) < 1e-8 := by
  unfold propellor_axis
  cases h : node.FirstChildElement "axis" with
  | none => simp
  | some axis_node =>
    by_cases hn : norm env.sqrt (parseVectorAttribute env axis_node "xyz" ![1.0, 0.0, 0.0])
        < 1e-8
    · simp [hn]
    · simp [hn]

theorem construct_of_no_parent (env : LoadEnv K Tf T) (sys : LoadState K Tf T)
    (node : TiXmlElement) (name : String) (h : node.FirstChildElement "parent" = none) :
    RigidBodyPropellor.construct env sys node name =
      (Outcome.throws (LoadError.missing_parent name), sys) := by
  simp only [RigidBodyPropellor.construct, h]

theorem construct_of_zero_axis (env : LoadEnv K Tf T) (sys : LoadState K Tf T)
    (node : TiXmlElement) (name : String) (parent_node : TiXmlElement)
    (h : node.FirstChildElement "parent" = some parent_node)
    (ha : propellor_axis env node = none) :
    RigidBodyPropellor.construct env sys node name =
      (Outcome.throws LoadError.axis_is_zero,
        { sys with tree := (env.addFrame sys.tree
            (env.makeFrame sys.tree parent_node (node.FirstChildElement "origin")
              (name ++ "Frame"))) }) := by
  simp only [RigidBodyPropellor.construct, h, ha]

theorem construct_of_axis (env : LoadEnv K Tf T) (sys : LoadState K Tf T)
    (node : TiXmlElement) (name : String) (parent_node : TiXmlElement) (axis : Vector3 K)
    (h : node.FirstChildElement "parent" = some parent_node)
    (ha : propellor_axis env node = some axis) :
    RigidBodyPropellor.construct env sys node name =
      (Outcome.ok
        { name := name
          frame := env.makeFrame sys.tree parent_node (node.FirstChildElement "origin")
            (name ++ "Frame")
          axis := axis
          scale_factor_thrust := parseScalarAttribute env node "scale_factor_thrust" 1.0
          scale_factor_moment := parseScalarAttribute env node "scale_factor_moment" 1.0
          lower_limit := parseLimitAttribute env node "lower_limit" Limit.neg_infinity
          upper_limit := parseLimitAttribute env node "upper_limit" Limit.infinity },
        { sys with tree := (env.addFrame sys.tree
            (env.makeFrame sys.tree parent_node (node.FirstChildElement "origin")
              (name ++ "Frame"))) }) := by
  simp only [RigidBodyPropellor.construct, h, ha]

/-- C12: the constructor of `RigidBodyPropellor` throws exactly when the declaration has
no `parent` child, or has an `axis` child whose vector has norm below `1e-8`; otherwise
(a parent, and no axis or an axis of norm at least `1e-8`) it returns a propellor; it
never does anything else. -/
theorem construct_throws_iff (env : LoadEnv K Tf T) (sys : LoadState K Tf T)
    (node : TiXmlElement) (name : String) :
    ((∃ e, (RigidBodyPropellor.construct env sys node name).1 = Outcome.throws e) ↔
      (node.FirstChildElement "parent" = none ∨
        ∃ axis_node, node.FirstChildElement "axis" = some axis_node ∧
          norm env.sqrt (parseVectorAttribute env axis_node "xyz" ![1.0, 0.0, 0.0]) < 1e-8)) ∧
    ((∃ p, (RigidBodyPropellor.construct env sys node name).1 = Outcome.ok p) ↔
      (node.FirstChildElement "parent" ≠ none ∧
        (node.FirstChildElement "axis" = none ∨
          ∃ axis_node, node.FirstChildElement "axis" = some axis_node ∧
            1e-8 ≤ norm env.sqrt
              (parseVectorAttribute env axis_node "xyz" ![1.0, 0.0, 0.0])))) ∧
    (RigidBodyPropellor.construct env sys node name).1 ≠ Outcome.undefined := by
  cases hp : node.FirstChildElement "parent" with
  | none =>
    rw [construct_of_no_parent env sys node name hp]
    simp
  | some parent_node =>
    cases ha : propellor_axis env node with
    | none =>
      rw [construct_of_zero_axis env sys node name parent_node hp ha]
      obtain ⟨axis_node, h1, h2⟩ := (propellor_axis_eq_none_iff env node).mp ha
      refine ⟨?_, ?_, by simp⟩
      · simp only [Outcome.throws.injEq, exists_eq', true_iff]
        exact Or.inr ⟨axis_node, h1, h2⟩
      · simp only [false_iff, reduceCtorEq, exists_false]
        rintro ⟨_, h | ⟨a, h3, h4⟩⟩
        · rw [h1] at h; exact absurd h (by simp)
        · rw [h1] at h3
          cases h3
          exact absurd h2 (not_lt.mpr h4)
    | some axis =>
      rw [construct_of_axis env sys node name parent_node axis hp ha]
      have hne : ¬ ∃ axis_node, node.FirstChildElement "axis" = some axis_node ∧
          norm env.sqrt (parseVectorAttribute env axis_node "xyz" ![1.0, 0.0, 0.0]) < 1e-8 := by
        rw [← propellor_axis_eq_none_iff, ha]; simp
      refine ⟨?_, ?_, by simp⟩
      · simp only [reduceCtorEq, exists_false, false_iff]
        rintro (h | h)
        · exact absurd h (by simp)
        · exact hne h
      · simp only [Outcome.ok.injEq, exists_eq', true_iff]
        refine ⟨by simp, ?_⟩
        cases hx : node.FirstChildElement "axis" with
        | none => exact Or.inl rfl
        | some axis_node =>
          refine Or.inr ⟨axis_node, rfl, ?_⟩
          exact not_lt.mp fun hlt => hne ⟨axis_node, hx, hlt⟩

end loading_thms

section propellor_parameters

variable {K : Type} [LinearOrderedField K] {Tf T : Type}

/-- The parts of a successful construction that no arithmetic enters: without an `axis`
child the stored axis is `[1, 0, 0]`; a scale factor that is not supplied is `1.0`, a
lower limit that is not supplied is minus infinity and an upper limit that is not
supplied is plus infinity. -/
theorem construct_ok_defaults (env : LoadEnv K Tf T) (sys sys' : LoadState K Tf T)
    (node : TiXmlElement) (name : String) (p : RigidBodyPropellor K Tf)
    (hok : RigidBodyPropellor.construct env sys node name = (Outcome.ok p, sys')) :
    (node.FirstChildElement "axis" = none → p.axis = ![1, 0, 0]) ∧
    (node.Attribute "scale_factor_thrust" = none → p.scale_factor_thrust = 1.0) ∧
    (node.Attribute "scale_factor_moment" = none → p.scale_factor_moment = 1.0) ∧
    (node.Attribute "lower_limit" = none → p.lower_limit = Limit.neg_infinity) ∧
    (node.Attribute "upper_limit" = none → p.upper_limit = Limit.infinity) := by
  cases hp : node.FirstChildElement "parent" with
  | none =>
    rw [construct_of_no_parent env sys node name hp] at hok
    simp at hok
  | some parent_node =>
    cases ha : propellor_axis env node with
    | none =>
      rw [construct_of_zero_axis env sys node name parent_node hp ha] at hok
      simp at hok
    | some axis =>
      rw [construct_of_axis env sys node name parent_node axis hp ha] at hok
      have hpeq := (Outcome.ok.inj (Prod.mk.inj hok).1).symm
      subst hpeq
      refine ⟨?_, ?_, ?_, ?_, ?_⟩
      · intro hx
        unfold propellor_axis at ha
        rw [hx] at ha
        simp only [Option.some.injEq] at ha
        show axis = ![1, 0, 0]
        rw [← ha]
        norm_num
      · intro h; simp only [parseScalarAttribute, h]
      · intro h; simp only [parseScalarAttribute, h]
      · intro h; simp only [parseLimitAttribute, h]
      · intro h; simp only [parseLimitAttribute, h]

/-- C13, evaluated at a propellor with a parent whose axis reads `1e200 0 0`: the
squared norm overflows, so `axis.norm()` is infinity; infinity is not below `1e-8`, so
line 176 does not throw; `normalize()` divides every entry by infinity, and the stored
axis is `[0, 0, 0]`, of norm `0`, not `1`.  For the axis `0 0 2` the same lines store
`[0, 0, 1]`, of norm `1`. -/
theorem propellor_axis_overflow :
    (propellorNode "1e200 0 0").FirstChildElement "parent" ≠ none ∧
    Double.norm Rat.sqrt ![Double.finite (10 ^ 200), Double.finite 0, Double.finite 0] =
      Double.infinity ∧
    Double.lt Double.infinity (Double.finite 1e-8) = false ∧
    propellor_axis_double Rat.sqrt exampleParseVectorDouble (propellorNode "1e200 0 0") =
      some ![Double.finite 0, Double.finite 0, Double.finite 0] ∧
    Double.norm Rat.sqrt ![Double.finite 0, Double.finite 0, Double.finite 0] =
      Double.finite 0 ∧
    propellor_axis_double Rat.sqrt exampleParseVectorDouble (propellorNode "0 0 2") =
      some ![Double.finite 0, Double.finite 0, Double.finite 1] ∧
    Double.norm Rat.sqrt ![Double.finite 0, Double.finite 0, Double.finite 1] =
      Double.finite 1 := by
  have hbig : (2 : ℚ) ^ 1024 ≤ 10 ^ 200 * 10 ^ 200 := by norm_num
  have hov : ∀ a : ℚ, ¬ (2 : ℚ) ^ 1024 ≤ a → ¬ a ≤ -2 ^ 1024 →
      Double.overflow a = Double.finite a := by
    intro a h1 h2
    simp only [Double.overflow, if_neg h1, if_neg h2]
  have hov0 : Double.overflow 0 = Double.finite 0 := hov 0 (by norm_num) (by norm_num)
  have hov1 : Double.overflow 1 = Double.finite 1 := hov 1 (by norm_num) (by norm_num)
  have hov4 : Double.overflow 4 = Double.finite 4 := hov 4 (by norm_num) (by norm_num)
  have hm0 : Double.mul (Double.finite 0) (Double.finite 0) = Double.finite 0 := by
    simp only [Double.mul, mul_zero, hov0]
  have hm1 : Double.mul (Double.finite 1) (Double.finite 1) = Double.finite 1 := by
    simp only [Double.mul, mul_one, hov1]
  have hm2 : Double.mul (Double.finite 2) (Double.finite 2) = Double.finite 4 := by
    have h : (2 : ℚ) * 2 = 4 := by norm_num
    simp only [Double.mul, h, hov4]
  have hmbig : Double.mul (Double.finite (10 ^ 200)) (Double.finite (10 ^ 200)) =
      Double.infinity := by
    simp only [Double.mul, Double.overflow, if_pos hbig]
  have ha00 : Double.add (Double.finite 0) (Double.finite 0) = Double.finite 0 := by
    simp only [Double.add, add_zero, hov0]
  have ha01 : Double.add (Double.finite 0) (Double.finite 1) = Double.finite 1 := by
    simp only [Double.add, zero_add, hov1]
  have ha04 : Double.add (Double.finite 0) (Double.finite 4) = Double.finite 4 := by
    simp only [Double.add, zero_add, hov4]
  have hs4 : Rat.sqrt 4 = 2 := by
    have h := Rat.sqrt_eq 2
    rwa [show (2 : ℚ) * 2 = 4 by norm_num, abs_of_pos (by norm_num : (0 : ℚ) < 2)] at h
  have hs1 : Rat.sqrt 1 = 1 := by decide
  have hs0 : Rat.sqrt 0 = 0 := by decide
  have hq0 : Double.sqrt Rat.sqrt (Double.finite 0) = Double.finite 0 := by
    simp only [Double.sqrt, lt_self_iff_false, if_false, hs0]
  have hq1 : Double.sqrt Rat.sqrt (Double.finite 1) = Double.finite 1 := by
    have h : ¬ (1 : ℚ) < 0 := by norm_num
    simp only [Double.sqrt, if_neg h, hs1]
  have hq4 : Double.sqrt Rat.sqrt (Double.finite 4) = Double.finite 2 := by
    have h : ¬ (4 : ℚ) < 0 := by norm_num
    simp only [Double.sqrt, if_neg h, hs4]
  have hnorm : Double.norm Rat.sqrt
      ![Double.finite (10 ^ 200), Double.finite 0, Double.finite 0] = Double.infinity := by
    simp only [Double.norm, Matrix.cons_val_zero, Matrix.cons_val_one, Matrix.head_cons,
      Matrix.cons_val_two, Matrix.tail_cons, hmbig, hm0]
    rfl
  have hnorm0 : Double.norm Rat.sqrt ![Double.finite 0, Double.finite 0, Double.finite 0] =
      Double.finite 0 := by
    simp only [Double.norm, Matrix.cons_val_zero, Matrix.cons_val_one, Matrix.head_cons,
      Matrix.cons_val_two, Matrix.tail_cons, hm0, ha00, hq0]
  have hnorm1 : Double.norm Rat.sqrt ![Double.finite 0, Double.finite 0, Double.finite 1] =
      Double.finite 1 := by
    simp only [Double.norm, Matrix.cons_val_zero, Matrix.cons_val_one, Matrix.head_cons,
      Matrix.cons_val_two, Matrix.tail_cons, hm0, hm1, ha00, ha01, hq1]
  have hnorm2 : Double.norm Rat.sqrt ![Double.finite 0, Double.finite 0, Double.finite 2] =
      Double.finite 2 := by
    simp only [Double.norm, Matrix.cons_val_zero, Matrix.cons_val_one, Matrix.head_cons,
      Matrix.cons_val_two, Matrix.tail_cons, hm0, hm2, ha00, ha04, hq4]
  have hd02 : Double.div (Double.finite 0) (Double.finite 2) = Double.finite 0 := by
    have h : ¬ (2 : ℚ) = 0 := by norm_num
    simp only [Double.div, if_neg h, zero_div, hov0]
  have hd22 : Double.div (Double.finite 2) (Double.finite 2) = Double.finite 1 := by
    have h : ¬ (2 : ℚ) = 0 := by norm_num
    have h' : (2 : ℚ) / 2 = 1 := by norm_num
    simp only [Double.div, if_neg h, h', hov1]
  have hparent : (propellorNode "1e200 0 0").FirstChildElement "parent" ≠ none := by
    simp [propellorNode, TiXmlElement.FirstChildElement, TiXmlElement.children,
      TiXmlElement.Value]
  have hx : ∀ xyz : String, (propellorNode xyz).FirstChildElement "axis" =
      some (TiXmlElement.mk "axis" [("xyz", xyz)] []) := by
    intro xyz
    simp [propellorNode, TiXmlElement.FirstChildElement, TiXmlElement.children,
      TiXmlElement.Value]
  have hattr : ∀ xyz : String,
      (TiXmlElement.mk "axis" [("xyz", xyz)] []).Attribute "xyz" = some xyz := by
    intro xyz
    simp [TiXmlElement.Attribute, TiXmlElement.attributes]
  refine ⟨hparent, hnorm, rfl, ?_, hnorm0, ?_, hnorm1⟩
  · simp only [propellor_axis_double, hx, hattr, exampleParseVectorDouble, if_true, hnorm,
      Double.lt, Bool.false_eq_true, if_false, Option.some.injEq]
    funext j
    fin_cases j <;> simp [Double.normalize, hnorm, Double.div]
  · have hne : ¬ ("0 0 2" = "1e200 0 0") := by decide
    have hlt : Double.lt (Double.finite 2) (Double.finite 1e-8) = false := by
      simp only [Double.lt, decide_eq_false_iff_not]
      norm_num
    simp only [propellor_axis_double, hx, hattr, exampleParseVectorDouble, if_neg hne, if_true,
      hnorm2, hlt, Bool.false_eq_true, if_false, Option.some.injEq]
    funext j
    fin_cases j <;> simp [Double.normalize, hnorm2, hd02, hd22]

end propellor_parameters

section loading_state

variable {K : Type} [LinearOrderedField K] {Tf T : Type}

/-- The constructor of a propellor registers nothing, however it ends. -/
theorem construct_props (env : LoadEnv K Tf T) (sys : LoadState K Tf T) (node : TiXmlElement)
    (name : String) : (RigidBodyPropellor.construct env sys node name).2.props = sys.props := by
  cases hp : node.FirstChildElement "parent" with
  | none => rw [construct_of_no_parent env sys node name hp]
  | some parent_node =>
    cases ha : propellor_axis env node with
    | none => rw [construct_of_zero_axis env sys node name parent_node hp ha]
    | some axis => rw [construct_of_axis env sys node name parent_node axis hp ha]

theorem parseForceElement_of_no_propellor (env : LoadEnv K Tf T) (sys : LoadState K Tf T)
    (fe : TiXmlElement) (name : String) (hname : fe.Attribute "name" = some name)
    (hp : fe.FirstChildElement "propellor" = none) :
    parseForceElement env sys fe = (Outcome.ok (), sys) := by
  simp only [parseForceElement, hname, hp]

theorem parseForceElement_of_propellor (env : LoadEnv K Tf T) (sys : LoadState K Tf T)
    (fe : TiXmlElement) (name : String) (propellor_node : TiXmlElement)
    (hname : fe.Attribute "name" = some name)
    (hp : fe.FirstChildElement "propellor" = some propellor_node) :
    parseForceElement env sys fe =
      match RigidBodyPropellor.construct env sys propellor_node name with
      | (Outcome.ok prop, sys) => (Outcome.ok (), { sys with props := sys.props ++ [prop] })
      | (Outcome.throws e, sys) => (Outcome.throws e, sys)
      | (Outcome.undefined, sys) => (Outcome.undefined, sys) := by
  simp only [parseForceElement, hname, hp]

/-- Parsing one force element keeps the force elements registered before it. -/
theorem parseForceElement_props (env : LoadEnv K Tf T) (sys : LoadState K Tf T)
    (fe : TiXmlElement) : ∃ l, (parseForceElement env sys fe).2.props = sys.props ++ l := by
  cases hname : fe.Attribute "name" with
  | none => exact ⟨[], by simp [parseForceElement, hname]⟩
  | some name =>
    cases hp : fe.FirstChildElement "propellor" with
    | none =>
      rw [parseForceElement_of_no_propellor env sys fe name hname hp]
      exact ⟨[], by simp⟩
    | some propellor_node =>
      rw [parseForceElement_of_propellor env sys fe name propellor_node hname hp]
      have hc := construct_props env sys propellor_node name
      rcases hr : RigidBodyPropellor.construct env sys propellor_node name with ⟨o, s⟩
      rw [hr] at hc
      simp only at hc
      cases o with
      | ok prop => exact ⟨[prop], by simp [hc]⟩
      | throws e => exact ⟨[], by simp [hc]⟩
      | undefined => exact ⟨[], by simp [hc]⟩

/-- The loop over the force elements keeps the force elements registered before it,
however it ends. -/
theorem parseForceElements_props (env : LoadEnv K Tf T) (nodes : List TiXmlElement) :
    ∀ sys : LoadState K Tf T,
      ∃ l, (parseForceElements env nodes sys).2.props = sys.props ++ l := by
  induction nodes with
  | nil => intro sys; exact ⟨[], by simp [parseForceElements]⟩
  | cons fe rest ih =>
    intro sys
    obtain ⟨l1, h1⟩ := parseForceElement_props env sys fe
    rcases hr : parseForceElement env sys fe with ⟨o, s⟩
    rw [hr] at h1
    simp only at h1
    cases o with
    | ok u =>
      obtain ⟨l2, h2⟩ := ih s
      refine ⟨l1 ++ l2, ?_⟩
      simp only [parseForceElements, hr]
      rw [h2, h1, List.append_assoc]
    | throws e => exact ⟨l1, by simp only [parseForceElements, hr]; exact h1⟩
    | undefined => exact ⟨l1, by simp only [parseForceElements, hr]; exact h1⟩

/-- The loop stops at the first force element that does not return: what it leaves is
what that element left, after the elements before it. -/
theorem parseForceElements_stops (env : LoadEnv K Tf T) (done : List TiXmlElement) :
    ∀ (sys sys1 : LoadState K Tf T) (failing : TiXmlElement) (rest : List TiXmlElement),
      parseForceElements env done sys = (Outcome.ok (), sys1) →
      (∀ u, (parseForceElement env sys1 failing).1 ≠ Outcome.ok u) →
      parseForceElements env (done ++ failing :: rest) sys =
        parseForceElement env sys1 failing := by
  induction done with
  | nil =>
    intro sys sys1 failing rest h hf
    simp only [parseForceElements, Prod.mk.injEq, true_and] at h
    subst h
    rcases hr : parseForceElement env sys failing with ⟨o, s⟩
    rw [hr] at hf
    cases o with
    | ok u => exact absurd rfl (hf u)
    | throws e => simp only [List.nil_append, parseForceElements, hr]
    | undefined => simp only [List.nil_append, parseForceElements, hr]
  | cons fe done ih =>
    intro sys sys1 failing rest h hf
    rcases hr : parseForceElement env sys fe with ⟨o, s⟩
    cases o with
    | ok u =>
      simp only [parseForceElements, hr] at h
      simp only [List.cons_append, parseForceElements, hr]
      exact ih s sys1 failing rest h hf
    | throws e => simp [parseForceElements, hr] at h
    | undefined => simp [parseForceElements, hr] at h

theorem example_axis_zero :
    propellor_axis (exampleEnv ℚ Rat.sqrt) (propellorNode "0 0 0") = none := by
  have hx : (propellorNode "0 0 0").FirstChildElement "axis" =
      some (TiXmlElement.mk "axis" [("xyz", "0 0 0")] []) := by
    simp [propellorNode, TiXmlElement.FirstChildElement, TiXmlElement.children,
      TiXmlElement.Value]
  have hs : parseVectorAttribute (exampleEnv ℚ Rat.sqrt)
      (TiXmlElement.mk "axis" [("xyz", "0 0 0")] []) "xyz" ![1.0, 0.0, 0.0] = 0 := by
    simp [parseVectorAttribute, TiXmlElement.Attribute, TiXmlElement.attributes, exampleEnv]
  have hn : norm (exampleEnv ℚ Rat.sqrt).sqrt (0 : Vector3 ℚ) < 1e-8 := by
    have h0 : norm (exampleEnv ℚ Rat.sqrt).sqrt (0 : Vector3 ℚ) = 0 := by
      show Rat.sqrt (Matrix.dotProduct (0 : Vector3 ℚ) 0) = 0
      rw [Matrix.dotProduct_zero]; decide
    rw [h0]; norm_num
  simp only [propellor_axis, hx, hs, if_pos hn]

theorem example_axis_3_0_4 :
    propellor_axis (exampleEnv ℚ Rat.sqrt) (propellorNode "3 0 4") =
      some (normalize Rat.sqrt ![3, 0, 4]) := by
  have hx : (propellorNode "3 0 4").FirstChildElement "axis" =
      some (TiXmlElement.mk "axis" [("xyz", "3 0 4")] []) := by
    simp [propellorNode, TiXmlElement.FirstChildElement, TiXmlElement.children,
      TiXmlElement.Value]
  have hs : parseVectorAttribute (exampleEnv ℚ Rat.sqrt)
      (TiXmlElement.mk "axis" [("xyz", "3 0 4")] []) "xyz" ![1.0, 0.0, 0.0] = ![3, 0, 4] := by
    simp [parseVectorAttribute, TiXmlElement.Attribute, TiXmlElement.attributes, exampleEnv]
  have hn : ¬ norm (exampleEnv ℚ Rat.sqrt).sqrt (![3, 0, 4] : Vector3 ℚ) < 1e-8 := by
    have h5 : norm (exampleEnv ℚ Rat.sqrt).sqrt (![3, 0, 4] : Vector3 ℚ) = 5 := by
      show Rat.sqrt (Matrix.dotProduct (![3, 0, 4] : Vector3 ℚ) ![3, 0, 4]) = 5
      have hd : Matrix.dotProduct (![3, 0, 4] : Vector3 ℚ) ![3, 0, 4] = 5 * 5 := by
        simp [Matrix.dotProduct, Fin.sum_univ_three]; norm_num
      rw [hd, Rat.sqrt_eq]; norm_num
    rw [h5]; norm_num
  simp only [propellor_axis, hx, hs, if_neg hn]
  rfl

theorem example_parent (xyz : String) :
    (propellorNode xyz).FirstChildElement "parent" =
      some (TiXmlElement.mk "parent" [("link", "base")] []) := by
  simp [propellorNode, TiXmlElement.FirstChildElement, TiXmlElement.children,
    TiXmlElement.Value]

/-- C14, refuted as stated: the construction of a propellor whose axis reads `0 0 0`
throws, and the tree, which had no frame, has one frame afterwards; and parsing a robot
whose first force element is well formed and whose second has the zero axis throws with
the first force element registered and two frames in the tree. -/
theorem construct_zero_axis_leaves_frame :
    ((RigidBodyPropellor.construct (exampleEnv ℚ Rat.sqrt) (emptyLoadState ℚ)
        (propellorNode "0 0 0") "p").1 = Outcome.throws LoadError.axis_is_zero ∧
      (emptyLoadState ℚ).tree.length = 0 ∧
      (RigidBodyPropellor.construct (exampleEnv ℚ Rat.sqrt) (emptyLoadState ℚ)
        (propellorNode "0 0 0") "p").2.tree.length = 1) ∧
    ((parseURDF (exampleEnv ℚ Rat.sqrt) (emptyLoadState ℚ)
        (robotDocument [forceElementNode "a" [propellorNode "3 0 4"],
          forceElementNode "b" [propellorNode "0 0 0"]])).1 =
        Outcome.throws LoadError.axis_is_zero ∧
      (emptyLoadState ℚ).props.length = 0 ∧
      (parseURDF (exampleEnv ℚ Rat.sqrt) (emptyLoadState ℚ)
        (robotDocument [forceElementNode "a" [propellorNode "3 0 4"],
          forceElementNode "b" [propellorNode "0 0 0"]])).2.props.length = 1 ∧
      (parseURDF (exampleEnv ℚ Rat.sqrt) (emptyLoadState ℚ)
        (robotDocument [forceElementNode "a" [propellorNode "3 0 4"],
          forceElementNode "b" [propellorNode "0 0 0"]])).2.tree.length = 2) := by
  constructor
  · rw [construct_of_zero_axis _ _ _ _ _ (example_parent "0 0 0") example_axis_zero]
    exact ⟨rfl, rfl, rfl⟩
  · have hrobot : (robotDocument [forceElementNode "a" [propellorNode "3 0 4"],
        forceElementNode "b" [propellorNode "0 0 0"]]).FirstChildElement "robot" =
        some (TiXmlElement.mk "robot" [("name", "r")]
          [forceElementNode "a" [propellorNode "3 0 4"],
            forceElementNode "b" [propellorNode "0 0 0"]]) := by
      simp [robotDocument, TiXmlElement.FirstChildElement, TiXmlElement.children,
        TiXmlElement.Value]
    have hname : (TiXmlElement.mk "robot" [("name", "r")]
        [forceElementNode "a" [propellorNode "3 0 4"],
          forceElementNode "b" [propellorNode "0 0 0"]]).Attribute "name" = some "r" := by
      simp [TiXmlElement.Attribute, TiXmlElement.attributes]
    have hch : (TiXmlElement.mk "robot" [("name", "r")]
        [forceElementNode "a" [propellorNode "3 0 4"],
          forceElementNode "b" [propellorNode "0 0 0"]]).ChildElements "force_element" =
        [forceElementNode "a" [propellorNode "3 0 4"],
          forceElementNode "b" [propellorNode "0 0 0"]] := by
      simp [TiXmlElement.ChildElements, TiXmlElement.children, TiXmlElement.Value,
        forceElementNode]
    have hfa : ∀ (name : String) (c : TiXmlElement),
        (forceElementNode name [c]).Attribute "name" = some name := by
      intro name c
      simp [forceElementNode, TiXmlElement.Attribute, TiXmlElement.attributes]
    have hfp : ∀ (name xyz : String),
        (forceElementNode name [propellorNode xyz]).FirstChildElement "propellor" =
          some (propellorNode xyz) := by
      intro name xyz
      simp [forceElementNode, propellorNode, TiXmlElement.FirstChildElement,
        TiXmlElement.children, TiXmlElement.Value]
    simp only [parseURDF, hrobot, parseRobot, hname, hch, parseForceElements,
      parseForceElement_of_propellor _ _ _ _ _ (hfa _ _) (hfp _ _),
      construct_of_axis _ _ _ _ _ _ (example_parent "3 0 4") example_axis_3_0_4,
      construct_of_zero_axis _ _ _ _ _ (example_parent "0 0 0") example_axis_zero]
    simp [emptyLoadState, exampleEnv]

end loading_state

section loading_claims

variable {K : Type} [LinearOrderedField K] {Tf T : Type}

/-- C14, amended: a load-time error stops the call where it happens and nothing done
before it is undone.  The constructor of a propellor never registers a force element; if
it fails for a missing parent the system is as it was; if it fails for a zero axis the
frame of the propellor is already in the tree.  `parseURDF` and `parseRobot` leave the
system as it was when the robot tag or its name is missing.  The loop over the force
elements keeps what was registered before it, and when an element does not return, the
loop ends as that element did, after the elements before it.
`addRobotFromURDFString` is `parseURDF` run after `tree->addRobotFromURDFString`. -/
theorem load_failure_state (env : LoadEnv K Tf T) (sys : LoadState K Tf T) :
    (∀ node name, (RigidBodyPropellor.construct env sys node name).2.props = sys.props) ∧
    (∀ node name, node.FirstChildElement "parent" = none →
      RigidBodyPropellor.construct env sys node name =
        (Outcome.throws (LoadError.missing_parent name), sys)) ∧
    (∀ node name parent_node, node.FirstChildElement "parent" = some parent_node →
      propellor_axis env node = none →
      RigidBodyPropellor.construct env sys node name =
        (Outcome.throws LoadError.axis_is_zero,
          { sys with tree := (env.addFrame sys.tree
              (env.makeFrame sys.tree parent_node (node.FirstChildElement "origin")
                (name ++ "Frame"))) })) ∧
    (∀ xml_doc, xml_doc.FirstChildElement "robot" = none →
      parseURDF env sys xml_doc = (Outcome.throws LoadError.no_robot_tag, sys)) ∧
    (∀ node, node.Attribute "name" = none →
      parseRobot env sys node = (Outcome.throws LoadError.no_robot_name, sys)) ∧
    (∀ xml_doc node, xml_doc.FirstChildElement "robot" = some node →
      node.Attribute "name" = none →
      parseURDF env sys xml_doc = (Outcome.throws LoadError.no_robot_name, sys)) ∧
    (∀ nodes, ∃ l, (parseForceElements env nodes sys).2.props = sys.props ++ l) ∧
    (∀ done sys1 failing rest, parseForceElements env done sys = (Outcome.ok (), sys1) →
      (∀ u, (parseForceElement env sys1 failing).1 ≠ Outcome.ok u) →
      parseForceElements env (done ++ failing :: rest) sys =
        parseForceElement env sys1 failing) ∧
    (∀ xml_string root_dir floating_base_type,
      addRobotFromURDFString env sys xml_string root_dir floating_base_type =
        parseURDF env
          { sys with tree :=
              (env.treeAddRobot xml_string root_dir floating_base_type sys.tree) }
          (env.Parse xml_string)) := by
  refine ⟨construct_props env sys, construct_of_no_parent env sys,
    construct_of_zero_axis env sys, ?_, ?_, ?_, fun nodes => parseForceElements_props env nodes sys,
    fun done sys1 failing rest => parseForceElements_stops env done sys sys1 failing rest,
    fun _ _ _ => rfl⟩
  · intro xml_doc h
    simp only [parseURDF, h]
  · intro node h
    simp only [parseRobot, h]
  · intro xml_doc node h hn
    simp only [parseURDF, h, parseRobot, hn]

theorem load_failure_state_witness :
    (orphanPropellorNode.FirstChildElement "parent" = none ∧
      RigidBodyPropellor.construct (exampleEnv ℚ Rat.sqrt) (emptyLoadState ℚ)
        orphanPropellorNode "p" =
          (Outcome.throws (LoadError.missing_parent "p"), emptyLoadState ℚ)) ∧
    ((TiXmlElement.mk "" [] []).FirstChildElement "robot" = none ∧
      parseURDF (exampleEnv ℚ Rat.sqrt) (emptyLoadState ℚ) (TiXmlElement.mk "" [] []) =
        (Outcome.throws LoadError.no_robot_tag, emptyLoadState ℚ)) ∧
    (propellor_axis (exampleEnv ℚ Rat.sqrt) (propellorNode "0 0 0") = none ∧
      (RigidBodyPropellor.construct (exampleEnv ℚ Rat.sqrt) (emptyLoadState ℚ)
        (propellorNode "0 0 0") "p").2.props = (emptyLoadState ℚ).props) :=
  ⟨⟨rfl, (load_failure_state (exampleEnv ℚ Rat.sqrt) (emptyLoadState ℚ)).2.1
      orphanPropellorNode "p" rfl⟩,
    ⟨rfl, (load_failure_state (exampleEnv ℚ Rat.sqrt) (emptyLoadState ℚ)).2.2.2.1
      (TiXmlElement.mk "" [] []) rfl⟩,
    ⟨example_axis_zero, (load_failure_state (exampleEnv ℚ Rat.sqrt) (emptyLoadState ℚ)).1
      (propellorNode "0 0 0") "p"⟩⟩

theorem parseForceElement_of_loads (env : LoadEnv K Tf T) (sys : LoadState K Tf T)
    (fe : TiXmlElement) (h : force_element_loads env fe = true) :
    ∃ (sys' : LoadState K Tf T) (new : List (RigidBodyPropellor K Tf)),
      parseForceElement env sys fe = (Outcome.ok (), sys') ∧ sys'.props = sys.props ++ new ∧
      List.Forall₂ (registered_from env) new ([fe].filter has_propellor) := by
  unfold force_element_loads at h
  cases hname : fe.Attribute "name" with
  | none => rw [hname] at h; simp at h
  | some name =>
    cases hp : fe.FirstChildElement "propellor" with
    | none =>
      refine ⟨sys, [], parseForceElement_of_no_propellor env sys fe name hname hp, by simp, ?_⟩
      simp [has_propellor, hp]
    | some propellor_node =>
      rw [hname, hp] at h
      simp only [Option.isSome_some, Bool.true_and, Bool.and_eq_true] at h
      obtain ⟨parent_node, hparent⟩ := Option.isSome_iff_exists.mp h.1
      obtain ⟨axis, haxis⟩ := Option.isSome_iff_exists.mp h.2
      have hpf := parseForceElement_of_propellor env sys fe name propellor_node hname hp
      rw [construct_of_axis env sys propellor_node name parent_node axis hparent haxis] at hpf
      have hfil : [fe].filter has_propellor = [fe] := by simp [has_propellor, hp]
      rw [hfil]
      exact ⟨_, [_], hpf, rfl,
        List.Forall₂.cons ⟨hname, propellor_node, hp, haxis⟩ List.Forall₂.nil⟩

theorem parseForceElements_of_loads (env : LoadEnv K Tf T) (nodes : List TiXmlElement) :
    ∀ sys : LoadState K Tf T, (∀ fe ∈ nodes, force_element_loads env fe = true) →
      ∃ (sys' : LoadState K Tf T) (new : List (RigidBodyPropellor K Tf)),
        parseForceElements env nodes sys = (Outcome.ok (), sys') ∧
        sys'.props = sys.props ++ new ∧
        List.Forall₂ (registered_from env) new (nodes.filter has_propellor) := by
  induction nodes with
  | nil =>
    intro sys _
    exact ⟨sys, [], rfl, by simp, by simp⟩
  | cons fe rest ih =>
    intro sys h
    obtain ⟨s1, n1, h1, hp1, hr1⟩ :=
      parseForceElement_of_loads env sys fe (h fe (List.mem_cons_self _ _))
    obtain ⟨s2, n2, h2, hp2, hr2⟩ := ih s1 fun fe' hfe' => h fe' (List.mem_cons_of_mem _ hfe')
    refine ⟨s2, n1 ++ n2, ?_, ?_, ?_⟩
    · simp only [parseForceElements, h1, h2]
    · rw [hp2, hp1, List.append_assoc]
    · have hsplit : (fe :: rest).filter has_propellor =
          [fe].filter has_propellor ++ rest.filter has_propellor := by
        rw [← List.filter_append]; rfl
      rw [hsplit]
      exact List.rel_append hr1 hr2

/-- C15, refuted as stated: the document has a robot tag with a name and one
`force_element` child with a `propellor` child, but that propellor has no parent:
`parseURDF` throws and no force element is registered. -/
theorem parseURDF_orphan_propellor :
    (robotDocument [forceElementNode "f" [orphanPropellorNode]]).FirstChildElement "robot" =
      some (TiXmlElement.mk "robot" [("name", "r")]
        [forceElementNode "f" [orphanPropellorNode]]) ∧
    (TiXmlElement.mk "robot" [("name", "r")]
      [forceElementNode "f" [orphanPropellorNode]]).Attribute "name" = some "r" ∧
    (((TiXmlElement.mk "robot" [("name", "r")]
      [forceElementNode "f" [orphanPropellorNode]]).ChildElements "force_element").filter
        has_propellor).length = 1 ∧
    (parseURDF (exampleEnv ℚ Rat.sqrt) (emptyLoadState ℚ)
      (robotDocument [forceElementNode "f" [orphanPropellorNode]])).1 =
        Outcome.throws (LoadError.missing_parent "f") ∧
    (parseURDF (exampleEnv ℚ Rat.sqrt) (emptyLoadState ℚ)
      (robotDocument [forceElementNode "f" [orphanPropellorNode]])).2.props.length = 0 := by
  have hrobot : (robotDocument [forceElementNode "f" [orphanPropellorNode]]).FirstChildElement
      "robot" = some (TiXmlElement.mk "robot" [("name", "r")]
        [forceElementNode "f" [orphanPropellorNode]]) := by
    simp [robotDocument, TiXmlElement.FirstChildElement, TiXmlElement.children,
      TiXmlElement.Value]
  have hname : (TiXmlElement.mk "robot" [("name", "r")]
      [forceElementNode "f" [orphanPropellorNode]]).Attribute "name" = some "r" := by
    simp [TiXmlElement.Attribute, TiXmlElement.attributes]
  have hch : (TiXmlElement.mk "robot" [("name", "r")]
      [forceElementNode "f" [orphanPropellorNode]]).ChildElements "force_element" =
      [forceElementNode "f" [orphanPropellorNode]] := by
    simp [TiXmlElement.ChildElements, TiXmlElement.children, TiXmlElement.Value,
      forceElementNode]
  have hfa : (forceElementNode "f" [orphanPropellorNode]).Attribute "name" = some "f" := by
    simp [forceElementNode, TiXmlElement.Attribute, TiXmlElement.attributes]
  have hfp : (forceElementNode "f" [orphanPropellorNode]).FirstChildElement "propellor" =
      some orphanPropellorNode := by
    simp [forceElementNode, orphanPropellorNode, TiXmlElement.FirstChildElement,
      TiXmlElement.children, TiXmlElement.Value]
  have hno : orphanPropellorNode.FirstChildElement "parent" = none := rfl
  refine ⟨hrobot, hname, ?_, ?_, ?_⟩
  · rw [hch]
    simp [has_propellor, hfp]
  · simp only [parseURDF, hrobot, parseRobot, hname, hch, parseForceElements,
      parseForceElement_of_propellor _ _ _ _ _ hfa hfp, construct_of_no_parent _ _ _ _ hno]
  · simp only [parseURDF, hrobot, parseRobot, hname, hch, parseForceElements,
      parseForceElement_of_propellor _ _ _ _ _ hfa hfp, construct_of_no_parent _ _ _ _ hno]
    rfl

/-- C15, amended: `parseURDF` throws when the document has no `robot` tag, and when the
robot tag has no `name` attribute.  When both are there and every `force_element` child
loads (it has a name, and a `propellor` child of it has a parent and an axis that is not
rejected), `parseURDF` returns and has registered, after the force elements that were
there, one force element for each `force_element` child with a `propellor` child, in
document order, and none for the others. -/
theorem parseURDF_registers (env : LoadEnv K Tf T) (sys : LoadState K Tf T)
    (xml_doc : TiXmlElement) :
    (xml_doc.FirstChildElement "robot" = none →
      (parseURDF env sys xml_doc).1 = Outcome.throws LoadError.no_robot_tag) ∧
    (∀ node, xml_doc.FirstChildElement "robot" = some node → node.Attribute "name" = none →
      (parseURDF env sys xml_doc).1 = Outcome.throws LoadError.no_robot_name) ∧
    (∀ node, xml_doc.FirstChildElement "robot" = some node → node.Attribute "name" ≠ none →
      (∀ fe ∈ node.ChildElements "force_element", force_element_loads env fe = true) →
      ∃ new : List (RigidBodyPropellor K Tf),
        (parseURDF env sys xml_doc).1 = Outcome.ok () ∧
        (parseURDF env sys xml_doc).2.props = sys.props ++ new ∧
        new.length = ((node.ChildElements "force_element").filter has_propellor).length ∧
        List.Forall₂ (registered_from env) new
          ((node.ChildElements "force_element").filter has_propellor)) := by
  refine ⟨?_, ?_, ?_⟩
  · intro h
    simp only [parseURDF, h]
  · intro node h hn
    simp only [parseURDF, h, parseRobot, hn]
  · intro node h hn hall
    obtain ⟨name, hname⟩ := Option.ne_none_iff_exists'.mp hn
    obtain ⟨sys', new, h1, h2, h3⟩ :=
      parseForceElements_of_loads env (node.ChildElements "force_element") sys hall
    refine ⟨new, ?_, ?_, h3.length_eq, h3⟩
    · simp only [parseURDF, h, parseRobot, hname, h1]
    · simp only [parseURDF, h, parseRobot, hname, h1]
      exact h2

end loading_claims

section loading_witness

theorem parseURDF_registers_witness :
    ((robotDocument [forceElementNode "a" [propellorNode "3 0 4"],
        forceElementNode "n" []]).FirstChildElement "robot" =
      some (TiXmlElement.mk "robot" [("name", "r")]
        [forceElementNode "a" [propellorNode "3 0 4"], forceElementNode "n" []]) ∧
      (TiXmlElement.mk "robot" [("name", "r")]
        [forceElementNode "a" [propellorNode "3 0 4"], forceElementNode "n" []]).Attribute
          "name" ≠ none) ∧
    ∃ new : List (RigidBodyPropellor ℚ Unit),
      (parseURDF (exampleEnv ℚ Rat.sqrt) (emptyLoadState ℚ)
        (robotDocument [forceElementNode "a" [propellorNode "3 0 4"],
          forceElementNode "n" []])).1 = Outcome.ok () ∧
      (parseURDF (exampleEnv ℚ Rat.sqrt) (emptyLoadState ℚ)
        (robotDocument [forceElementNode "a" [propellorNode "3 0 4"],
          forceElementNode "n" []])).2.props = (emptyLoadState ℚ).props ++ new ∧
      new.length = 1 := by
  have hrobot : (robotDocument [forceElementNode "a" [propellorNode "3 0 4"],
      forceElementNode "n" []]).FirstChildElement "robot" =
      some (TiXmlElement.mk "robot" [("name", "r")]
        [forceElementNode "a" [propellorNode "3 0 4"], forceElementNode "n" []]) := by
    simp [robotDocument, TiXmlElement.FirstChildElement, TiXmlElement.children,
      TiXmlElement.Value]
  have hname : (TiXmlElement.mk "robot" [("name", "r")]
      [forceElementNode "a" [propellorNode "3 0 4"], forceElementNode "n" []]).Attribute
        "name" ≠ none := by
    simp [TiXmlElement.Attribute, TiXmlElement.attributes]
  have hch : (TiXmlElement.mk "robot" [("name", "r")]
      [forceElementNode "a" [propellorNode "3 0 4"],
        forceElementNode "n" []]).ChildElements "force_element" =
      [forceElementNode "a" [propellorNode "3 0 4"], forceElementNode "n" []] := by
    simp [TiXmlElement.ChildElements, TiXmlElement.children, TiXmlElement.Value,
      forceElementNode]
  have hpa : (forceElementNode "a" [propellorNode "3 0 4"]).FirstChildElement "propellor" =
      some (propellorNode "3 0 4") := by
    simp [forceElementNode, propellorNode, TiXmlElement.FirstChildElement,
      TiXmlElement.children, TiXmlElement.Value]
  have hpn : (forceElementNode "n" []).FirstChildElement "propellor" = none := rfl
  have hla : force_element_loads (exampleEnv ℚ Rat.sqrt)
      (forceElementNode "a" [propellorNode "3 0 4"]) = true := by
    have hn : (forceElementNode "a" [propellorNode "3 0 4"]).Attribute "name" = some "a" := by
      simp [forceElementNode, TiXmlElement.Attribute, TiXmlElement.attributes]
    simp only [force_element_loads, hn, hpa, example_parent, example_axis_3_0_4]
    rfl
  have hln : force_element_loads (exampleEnv ℚ Rat.sqrt) (forceElementNode "n" []) = true := by
    have hn : (forceElementNode "n" []).Attribute "name" = some "n" := by
      simp [forceElementNode, TiXmlElement.Attribute, TiXmlElement.attributes]
    simp only [force_element_loads, hn, hpn]
    rfl
  obtain ⟨new, h1, h2, h3, _⟩ :=
    (parseURDF_registers (exampleEnv ℚ Rat.sqrt) (emptyLoadState ℚ)
      (robotDocument [forceElementNode "a" [propellorNode "3 0 4"],
        forceElementNode "n" []])).2.2 _ hrobot hname (by
          rw [hch]
          intro fe hfe
          simp only [List.mem_cons, List.mem_singleton, List.not_mem_nil, or_false] at hfe
          rcases hfe with h | h
          · rw [h]; exact hla
          · rw [h]; exact hln)
  refine ⟨⟨hrobot, hname⟩, new, h1, h2, ?_⟩
  rw [h3, hch]
  simp [has_propellor, hpa, hpn]

end loading_witness

/-! ## Initial state: theorems -/

section initial_state

variable {K : Type} [LinearOrderedField K] {Cache : Type}

theorem constraint_array_length (loops : List (RigidBodyLoop K)) :
    (constraint_array loops).length = 2 * loops.length := by
  induction loops with
  | nil => rfl
  | cons loop rest ih =>
    simp only [constraint_array, List.flatMap_cons, List.length_append, List.length_cons] at ih ⊢
    rw [ih]
    simp only [loop_constraints, List.length_cons, List.length_nil]
    omega

theorem constraint_array_get (loops : List (RigidBodyLoop K)) :
    ∀ (i : Nat) (h : i < loops.length),
      (constraint_array loops).get? (2 * i) =
        some ⟨0, 0, 0, (loops.get ⟨i, h⟩).frameA_frame_index,
          (loops.get ⟨i, h⟩).frameB_frame_index, bTbp,
          (Limit.neg_infinity, Limit.infinity)⟩ ∧
      (constraint_array loops).get? (2 * i + 1) =
        some ⟨(loops.get ⟨i, h⟩).axis, (loops.get ⟨i, h⟩).axis, (loops.get ⟨i, h⟩).axis,
          (loops.get ⟨i, h⟩).frameA_frame_index, (loops.get ⟨i, h⟩).frameB_frame_index, bTbp,
          (Limit.neg_infinity, Limit.infinity)⟩ := by
  induction loops with
  | nil => intro i h; simp at h
  | cons loop rest ih =>
    intro i h
    cases i with
    | zero => exact ⟨rfl, rfl⟩
    | succ k =>
      have hk : k < rest.length := by simpa using h
      have h1 : constraint_array (loop :: rest) =
          loop_constraints loop ++ constraint_array rest := by
        simp [constraint_array]
      have e1 : 2 * (k + 1) = 2 * k + 2 := by ring
      have e2 : 2 * k + 2 + 1 = 2 * k + 1 + 2 := by ring
      rw [h1, e1, e2]
      simp only [loop_constraints, List.cons_append, List.nil_append, List.get?_cons_succ,
        List.get_cons_succ]
      exact ih k hk

theorem range_map_getD_eq_take (l : List String) (k : Nat) (hk : k ≤ l.length) :
    (List.range k).map (fun i => l.getD i "") = l.take k := by
  apply List.ext_getElem
  · simp [hk]
  · intro i h1 h2
    have hi : i < k := by simpa using h1
    have hil : i < l.length := lt_of_lt_of_le hi hk
    simp [List.getD_eq_getElem?_getD, List.getElem?_eq_getElem hil]

/-- The names that the report lists are the first five of the list, at most, in order. -/
theorem infeasible_report_of_ge (info : Int) (infeasible_constraint : List String)
    (h : 10 ≤ info) :
    infeasible_report info infeasible_constraint =
      ["INFO = ", toString info, endl,
        toString infeasible_constraint.length, " infeasible constraints:"] ++
      (if 5 < infeasible_constraint.length then [" (only printing first 5)", endl] else []) ++
      [endl] ++
      (infeasible_constraint.take 5).flatMap fun s => [s, endl] := by
  have hlist : ((List.range (if 5 < infeasible_constraint.length then 5
        else infeasible_constraint.length)).flatMap fun i =>
        [infeasible_constraint.getD i "", endl]) =
      (infeasible_constraint.take 5).flatMap fun s => [s, endl] := by
    have hk : (if 5 < infeasible_constraint.length then 5 else infeasible_constraint.length)
        ≤ infeasible_constraint.length := by
      split <;> omega
    have htake : infeasible_constraint.take
        (if 5 < infeasible_constraint.length then 5 else infeasible_constraint.length) =
        infeasible_constraint.take 5 := by
      split
      · rfl
      · rw [List.take_of_length_le (le_refl _), List.take_of_length_le (by omega)]
    rw [← htake, ← range_map_getD_eq_take _ _ hk, List.flatMap_map]
  simp only [infeasible_report, if_pos h, hlist]

/-- C18: when the tree has position constraints, `getInitialState` gives inverse
kinematics two constraints for each loop (entries `2*i` and `2*i+1` of the array, of
length `2 * loops.size()`), and whatever `info` inverse kinematics reports, it returns
`[q; 0]`: the `q` of inverse kinematics on top and `nv` zeros below.  It writes nothing
when `info < 10`; when `info >= 10` it lists the first five infeasible constraints, or
all of them when there are fewer, in order. -/
theorem getInitialState_of_constraints (tree : RigidBodyTree K Cache)
    (loops : List (RigidBodyLoop K))
    (random : Fin (tree.num_positions + tree.num_velocities) → K)
    (inverseKin : (Fin tree.num_positions → K) → (Fin tree.num_positions → K) → Nat →
      List (RelativePositionConstraint K) → IKResult K tree.num_positions)
    (hnc : tree.getNumPositionConstraints ≠ 0) :
    (constraint_array loops).length = 2 * loops.length ∧
    (∀ (i : Nat) (h : i < loops.length),
      (constraint_array loops).get? (2 * i) =
        some ⟨0, 0, 0, (loops.get ⟨i, h⟩).frameA_frame_index,
          (loops.get ⟨i, h⟩).frameB_frame_index, bTbp,
          (Limit.neg_infinity, Limit.infinity)⟩ ∧
      (constraint_array loops).get? (2 * i + 1) =
        some ⟨(loops.get ⟨i, h⟩).axis, (loops.get ⟨i, h⟩).axis, (loops.get ⟨i, h⟩).axis,
          (loops.get ⟨i, h⟩).frameA_frame_index, (loops.get ⟨i, h⟩).frameB_frame_index, bTbp,
          (Limit.neg_infinity, Limit.infinity)⟩) ∧
    (getInitialState tree loops random inverseKin).1 =
      Fin.append
        (inverseKin (x_q random) (x_q random) (2 * loops.length) (constraint_array loops)).q
        (0 : Fin tree.num_velocities → K) ∧
    (∀ i : Fin tree.num_positions,
      (getInitialState tree loops random inverseKin).1 (Fin.castAdd tree.num_velocities i) =
        (inverseKin (x_q random) (x_q random) (2 * loops.length)
          (constraint_array loops)).q i) ∧
    (∀ j : Fin tree.num_velocities,
      (getInitialState tree loops random inverseKin).1 (Fin.natAdd tree.num_positions j) = 0) ∧
    ((inverseKin (x_q random) (x_q random) (2 * loops.length)
        (constraint_array loops)).info < 10 →
      (getInitialState tree loops random inverseKin).2 = []) ∧
    (10 ≤ (inverseKin (x_q random) (x_q random) (2 * loops.length)
        (constraint_array loops)).info →
      (getInitialState tree loops random inverseKin).2 =
        ["INFO = ",
          toString (inverseKin (x_q random) (x_q random) (2 * loops.length)
            (constraint_array loops)).info, endl,
          toString (inverseKin (x_q random) (x_q random) (2 * loops.length)
            (constraint_array loops)).infeasible_constraint.length,
          " infeasible constraints:"] ++
        (if 5 < (inverseKin (x_q random) (x_q random) (2 * loops.length)
            (constraint_array loops)).infeasible_constraint.length
          then [" (only printing first 5)", endl] else []) ++
        [endl] ++
        ((inverseKin (x_q random) (x_q random) (2 * loops.length)
          (constraint_array loops)).infeasible_constraint.take 5).flatMap
            fun s => [s, endl]) := by
  have h1 : (getInitialState tree loops random inverseKin).1 =
      Fin.append
        (inverseKin (x_q random) (x_q random) (2 * loops.length) (constraint_array loops)).q
        (0 : Fin tree.num_velocities → K) := by
    simp only [getInitialState, if_pos hnc]
  have h2 : (getInitialState tree loops random inverseKin).2 =
      infeasible_report
        (inverseKin (x_q random) (x_q random) (2 * loops.length) (constraint_array loops)).info
        (inverseKin (x_q random) (x_q random) (2 * loops.length)
          (constraint_array loops)).infeasible_constraint := by
    simp only [getInitialState, if_pos hnc]
  refine ⟨constraint_array_length loops, constraint_array_get loops, h1, ?_, ?_, ?_, ?_⟩
  · intro i
    rw [h1, Fin.append_left]
  · intro j
    rw [h1, Fin.append_right]
    rfl
  · intro hlt
    rw [h2]
    simp only [infeasible_report, if_neg (not_le.mpr hlt)]
  · intro hge
    rw [h2, infeasible_report_of_ge _ _ hge]

theorem getInitialState_of_constraints_witness :
    (exampleTree 1 1).getNumPositionConstraints ≠ 0 ∧
    (getInitialState (exampleTree 1 1) [⟨0, 1, ![0, 0, 1]⟩] ![1 / 2, 1 / 3]
        (fun _ _ _ _ => ⟨![7], 13, ["c1", "c2", "c3", "c4", "c5", "c6"]⟩)).1 =
      Fin.append (![7] : Fin 1 → ℚ) (0 : Fin 1 → ℚ) ∧
    ∃ header : List String,
      (getInitialState (exampleTree 1 1) [⟨0, 1, ![0, 0, 1]⟩] ![1 / 2, 1 / 3]
        (fun _ _ _ _ => ⟨![7], 13, ["c1", "c2", "c3", "c4", "c5", "c6"]⟩)).2 =
        header ++ (["c1", "c2", "c3", "c4", "c5", "c6"].take 5).flatMap fun s => [s, endl] :=
  ⟨by decide,
    (getInitialState_of_constraints (exampleTree 1 1) [⟨0, 1, ![0, 0, 1]⟩] ![1 / 2, 1 / 3]
      (fun _ _ _ _ => ⟨![7], 13, ["c1", "c2", "c3", "c4", "c5", "c6"]⟩) (by decide)).2.2.1,
    ⟨_, (getInitialState_of_constraints (exampleTree 1 1) [⟨0, 1, ![0, 0, 1]⟩] ![1 / 2, 1 / 3]
      (fun _ _ _ _ => ⟨![7], 13, ["c1", "c2", "c3", "c4", "c5", "c6"]⟩)
      (by decide)).2.2.2.2.2.2 (by decide)⟩⟩

end initial_state

end Drake
